import Mathlib

/-!
Verification of the aria parser framework (`aria/parser/framework`):
the schema-driven element graph processor (`parser.py`) and the intrinsic
function engine (`functions.py`), shallowly embedded in Lean.

Elements are identified by natural numbers; element types by strings.
The dependency graph machinery (`networkx.DiGraph`, `topological_sort`,
`recursive_simple_cycles`) is modelled by an explicit edge-list digraph,
Kahn's algorithm, and an executable cycle extractor, matching the
documented contract of the library calls in
`Context.elements_graph_topological_sort`.
-/

namespace Aria

/-- `ERROR_CODE_CYCLE` from `aria/parser/exceptions.py` (spec section 6:
error code 100 is a circular type/element dependency). -/
def ERROR_CODE_CYCLE : Nat := 100

/-- Model of `DSLParsingException` and its subclasses: a numbered error
carrying a message, the responsible element (`exc.element`, `None` until
attached), and, for cycle errors, the structured chain
(`exc.circular_dependency`). -/
structure DslException where
  code : Nat
  message : String
  element : Option Nat := none
  circular_dependency : Option (List String) := none
deriving Repr, DecidableEq

/-- A directed graph as node list plus edge list (model of
`networkx.DiGraph`). -/
structure Digraph where
  nodes : List Nat
  edges : List (Nat × Nat)
deriving Repr

/-- `DiGraph.reverse`: every edge is flipped (the node set is unchanged). -/
def Digraph.reverse (g : Digraph) : Digraph :=
  { nodes := g.nodes, edges := g.edges.map (fun p => (p.2, p.1)) }

/-- `v` has an incoming edge from a node of `remaining`. -/
def hasIncoming (edges : List (Nat × Nat)) (remaining : List Nat) (v : Nat) : Bool :=
  edges.any (fun p => decide (p.2 = v) && decide (p.1 ∈ remaining))

/-- First node of `remaining` with no incoming edge from `remaining`
(a source of the remaining subgraph). -/
def pickSource (edges : List (Nat × Nat)) (remaining : List Nat) : Option Nat :=
  remaining.find? (fun v => !hasIncoming edges remaining v)

/-- Kahn's algorithm: repeatedly remove a source, collecting the processing
order; returns the order together with the residual (nonempty exactly when
the algorithm got stuck on a cyclic remainder).  Models the contract of
`networkx.topological_sort`, which raises `NetworkXUnfeasible` iff the
graph is not a DAG. -/
def kahnRun (edges : List (Nat × Nat)) : Nat → List Nat → List Nat × List Nat
  | 0, remaining => ([], remaining)
  | fuel + 1, remaining =>
    match pickSource edges remaining with
    | none => ([], remaining)
    | some v =>
      let rec_result := kahnRun edges fuel (remaining.erase v)
      (v :: rec_result.1, rec_result.2)

/-- Position of `a` in `l` (0-based); `l.length`-ish junk when absent.
Used to state "strictly after" facts about the processing order. -/
def posOf (a : Nat) : List Nat → Nat
  | [] => 0
  | b :: l => if a = b then 0 else posOf a l + 1

/-- `c` is a simple (or at least genuine) cycle of the edge set: nonempty,
consecutive elements are joined by edges, and the last element has an edge
back to the first. -/
def IsCycle (edges : List (Nat × Nat)) (c : List Nat) : Prop :=
  c ≠ [] ∧ List.Chain' (fun a b => (a, b) ∈ edges) c ∧ (c.getLastD 0, c.headD 0) ∈ edges

/-- Some in-neighbour of `v` lying in `S` (meaningful when every node of
`S` has one, i.e. when Kahn's algorithm is stuck on `S`). -/
def pickIn (edges : List (Nat × Nat)) (S : List Nat) (v : Nat) : Nat :=
  (S.find? (fun u => decide ((u, v) ∈ edges))).getD v

/-- Keep the elements of a list up to and including the first occurrence
of `v`. -/
def cutAt (v : Nat) : List Nat → List Nat
  | [] => []
  | u :: rest => if u = v then [u] else u :: cutAt v rest

/-- Walk backwards along in-neighbours inside the stuck set, accumulating
the trail (most recent first) until a node repeats; the trail segment up
to the repeated node is a cycle. -/
def cycleWalk (edges : List (Nat × Nat)) (S : List Nat) : Nat → List Nat → Nat → List Nat
  | 0, _, _ => []
  | fuel + 1, acc, v =>
    if v ∈ acc then cutAt v acc
    else cycleWalk edges S fuel (v :: acc) (pickIn edges S v)

/-- Extract a cycle from a stuck set `S` (every node of `S` has an
in-neighbour in `S`).  Models the contract of
`networkx.recursive_simple_cycles(...)[0]`. -/
def findCycle (edges : List (Nat × Nat)) (S : List Nat) : List Nat :=
  match S with
  | [] => []
  | v :: _ => cycleWalk edges S (S.length + 1) [] v

/-- `Requirement` from `aria/parser/framework/requirements.py`: a declared
cross-element data dependency.  Element predicates relate dependent and
dependency element ids. -/
structure Requirement where
  name : String
  parsed : Bool := false
  multiple_results : Bool := false
  required : Bool := true
  predicate : Option (Nat → Nat → Bool) := none

/-- A value of a `requires` mapping is either a plain string (shorthand
for a `Requirement` with default flags) or a full `Requirement`. -/
inductive ReqSpec where
  | str (name : String)
  | req (r : Requirement)

/-- `_requirements_setup` from `parser.py`: resolve the `self` required
type to the element type itself, follow the type's `extend` attribute when
present, and normalise each string requirement into a `Requirement` with
default flags. -/
def requirements_setup (required_type : String) (requirements : List ReqSpec)
    (element_type : String) (extend_of : String → Option String) :
    String × List Requirement :=
  let rt := if required_type = "self" then element_type else required_type
  let rt := (extend_of rt).getD rt
  (rt, requirements.map (fun s =>
    match s with
    | .str name => { name := name }
    | .req r => r))

/-- The data of a populated `Context` that drives
`_calculate_element_graph`: the element containment tree (parent-to-child
edges), the per-type element index `element_type_to_elements`, and the
class-level `requires` and `extend` declarations of each element type.
Elements are numbered; `name_of` gives each element's `name` (used in the
cycle diagnostics). -/
structure PContext where
  nodes : List Nat
  name_of : Nat → String
  tree_edges : List (Nat × Nat)
  element_type_to_elements : List (String × List Nat)
  requires_of : String → List (String × List ReqSpec)
  extend_of : String → Option String := fun _ => none

/-- Lookup in the `defaultdict(list)` index `element_type_to_elements`. -/
def PContext.elementsOfType (ctx : PContext) (t : String) : List Nat :=
  ((ctx.element_type_to_elements.find? (fun p => p.1 = t)).map (fun p => p.2)).getD []

/-- The dependency edges added by `Context._calculate_element_graph`:
for every element type and each of its requirements (the special `inputs`
key excluded), an edge from each instance of the dependent type to each
instance of the required type, unless some declared predicate rejects the
pair. -/
def PContext.dep_edges (ctx : PContext) : List (Nat × Nat) :=
  ctx.element_type_to_elements.flatMap (fun te =>
    (ctx.requires_of te.1).flatMap (fun rr =>
      if (requirements_setup rr.1 rr.2 te.1 ctx.extend_of).1 = "inputs" then []
      else
        (ctx.elementsOfType (requirements_setup rr.1 rr.2 te.1 ctx.extend_of).1).flatMap
          (fun dependency =>
            te.2.filterMap (fun element =>
              if ((requirements_setup rr.1 rr.2 te.1 ctx.extend_of).2.filterMap
                    (fun r => r.predicate)).all (fun p => p element dependency)
              then some (element, dependency)
              else none))))

/-- `Context._calculate_element_graph`: the element graph is the
containment tree plus the dependency edges, then reversed in place so
that a topological sort yields producers before consumers. -/
def PContext.element_graph (ctx : PContext) : Digraph :=
  Digraph.reverse { nodes := ctx.nodes, edges := ctx.tree_edges ++ ctx.dep_edges }

/-- `Context.elements_graph_topological_sort`: topologically sort the
(already reversed) element graph; on a cycle, extract one cycle, render
the chain of element names with the first name repeated at the end, and
raise a `DSLParsingLogicException` with `ERROR_CODE_CYCLE` carrying the
chain as `circular_dependency`. -/
def PContext.elements_graph_topological_sort (ctx : PContext) :
    Except DslException (List Nat) :=
  let g := ctx.element_graph
  let run := kahnRun g.edges g.nodes.length g.nodes
  if run.2.isEmpty then .ok run.1
  else
    let cycle := findCycle g.edges run.2
    let names := cycle.map (fun e => ctx.name_of e)
    let names := names ++ [names.headD ""]
    .error
      { code := ERROR_CODE_CYCLE
        message := "Parsing failed. Circular dependency detected: " ++
          String.intercalate " --> " names
        circular_dependency := some names }

/-- The per-element loop of `parse`: process each element in order; when
a `DSLParsingException` escapes an element's processing and does not
already carry a responsible element, attach the current element before
re-raising.  Returns the list of elements processed (each exactly once,
in order). -/
def processLoop (process : Nat → Except DslException Unit) :
    List Nat → Except DslException (List Nat)
  | [] => .ok []
  | e :: rest =>
    match process e with
    | .error exc =>
      .error (if exc.element.isNone then { exc with element := some e } else exc)
    | .ok _ => (processLoop process rest).map (fun tr => e :: tr)

/-- `parse` from `framework/parser.py`: build the context, topologically
sort the element graph, and run the per-element pipeline
(`_validate_element_schema` + `_process_element`, abstracted here as the
`process` callback) over every element in order. -/
def parse (ctx : PContext) (process : Nat → Except DslException Unit) :
    Except DslException (List Nat) :=
  match ctx.elements_graph_topological_sort with
  | .error e => .error e
  | .ok order => processLoop process order

/-- Well-formedness of a populated context: tree edges join existing
elements and the per-type index only lists existing elements (guaranteed
by construction in `Context._add_element`/`_traverse_element_cls`). -/
def PContext.wf (ctx : PContext) : Bool :=
  ctx.tree_edges.all (fun p => decide (p.1 ∈ ctx.nodes) && decide (p.2 ∈ ctx.nodes)) &&
  ctx.element_type_to_elements.all (fun te => te.2.all (fun n => decide (n ∈ ctx.nodes)))

/-- A Python document value: the raw mapping/sequence/scalar trees the
parser and the function engine operate on.  Dicts are association lists
of (key, value) pairs. -/
inductive Value where
  | pnone
  | pbool (b : Bool)
  | pint (n : Int)
  | pstr (s : String)
  | plist (items : List Value)
  | pdict (entries : List (Value × Value))

/-- `value` is a Python string. -/
def Value.isStr : Value → Bool
  | .pstr _ => true
  | _ => false

/-- `value` is Python `None`. -/
def Value.isNone : Value → Bool
  | .pnone => true
  | _ => false

/-- Python `==` on hashable scalars (dict keys, path segments); note that
in Python `True == 1`.  Containers are unhashable and never dict keys. -/
def scalarBeq : Value → Value → Bool
  | .pnone, .pnone => true
  | .pbool a, .pbool b => a == b
  | .pbool a, .pint b => (if a then (1 : Int) else 0) == b
  | .pint a, .pbool b => a == (if b then (1 : Int) else 0)
  | .pint a, .pint b => a == b
  | .pstr a, .pstr b => a == b
  | _, _ => false

mutual

/-- Python `==` on document values (dict equality is modelled on the
entry lists, so it is insertion-order sensitive). -/
def Value.beq : Value → Value → Bool
  | .plist a, .plist b => beqValueList a b
  | .pdict a, .pdict b => beqValueEntries a b
  | a, b => scalarBeq a b

def beqValueList : List Value → List Value → Bool
  | [], [] => true
  | a :: as_, b :: bs => a.beq b && beqValueList as_ bs
  | _, _ => false

def beqValueEntries : List (Value × Value) → List (Value × Value) → Bool
  | [], [] => true
  | kv :: as_, lw :: bs => kv.1.beq lw.1 && kv.2.beq lw.2 && beqValueEntries as_ bs
  | _, _ => false

end

mutual

/-- Python `repr` of a document value. -/
def pyRepr : Value → String
  | .pnone => "None"
  | .pbool b => if b then "True" else "False"
  | .pint n => toString n
  | .pstr s => "\x27" ++ s ++ "\x27"
  | .plist items => "[" ++ pyReprList items ++ "]"
  | .pdict entries => "\x7b" ++ pyReprEntries entries ++ "\x7d"

def pyReprList : List Value → String
  | [] => ""
  | [x] => pyRepr x
  | x :: rest => pyRepr x ++ ", " ++ pyReprList rest

def pyReprEntries : List (Value × Value) → String
  | [] => ""
  | [kv] => pyRepr kv.1 ++ ": " ++ pyRepr kv.2
  | kv :: rest => pyRepr kv.1 ++ ": " ++ pyRepr kv.2 ++ ", " ++ pyReprEntries rest

end

/-- Python `str` of a document value (strings print bare, everything
else as its repr). -/
def pyStr (v : Value) : String :=
  match v with
  | .pstr s => s
  | _ => pyRepr v

/-- `_py_type_to_user_type(type(value))` from `parser.py` (`bool` is
tested before `int`, like the source; `NoneType` stands in for the
source's unreachable `ValueError('Unexpected type')` branch). -/
def user_type_of : Value → String
  | .pstr _ => "string"
  | .pbool _ => "boolean"
  | .pint _ => "integer"
  | .pdict _ => "dict"
  | .plist _ => "list"
  | .pnone => "NoneType"

/-- Python `type(value).__name__` (used in `TypeError` diagnostics). -/
def pyTypeName : Value → String
  | .pstr _ => "str"
  | .pbool _ => "bool"
  | .pint _ => "int"
  | .pdict _ => "dict"
  | .plist _ => "list"
  | .pnone => "NoneType"

/-- Association-list lookup with Python key equality: the model of
`value[key]`/`key in value` on a Python dict. -/
def dictLookup (entries : List (Value × Value)) (k : Value) : Option Value :=
  (entries.find? (fun kv => scalarBeq kv.1 k)).map (fun kv => kv.2)

/-- A Python type accepted by a `Leaf` schema descriptor. -/
inductive PyType where
  | tstr
  | tint
  | tbool
  | tfloat
  | tdict
  | tlist
deriving DecidableEq, Repr

/-- Python `isinstance(value, t)` for the types used by leaf schemas
(`bool` is a subclass of `int` in Python). -/
def isinstance : Value → PyType → Bool
  | .pstr _, .tstr => true
  | .pint _, .tint => true
  | .pbool _, .tbool => true
  | .pbool _, .tint => true
  | .pdict _, .tdict => true
  | .plist _, .tlist => true
  | _, _ => false

/-- User-facing name of a schema-declared Python type
(`_py_type_to_user_type` on the expected-type side). -/
def pyTypeUserName : PyType → String
  | .tstr => "string"
  | .tbool => "boolean"
  | .tint => "integer"
  | .tfloat => "float"
  | .tdict => "dict"
  | .tlist => "list"

/-- An element class: either the catch-all `UnknownElement` or a concrete
`Element` subclass referred to by name. -/
inductive ElemCls where
  | unknownElement
  | cls (name : String)
deriving DecidableEq, Repr

/-- One schema descriptor of the framework (`elements/__init__.py`
vocabulary as used by `parser.py`): a fixed mapping `{key: element_cls}`,
`Dict(type)`, `List(type)`, `Leaf(type-or-types)`, or `UnknownSchema`. -/
inductive ElemSchema where
  | fixed (entries : List (String × ElemCls))
  | dictOf (c : ElemCls)
  | listOf (c : ElemCls)
  | leaf (types : List PyType)
  | unknownSchema

/-- An element's class-level `schema` attribute: one descriptor, or an
ordered list of alternative descriptors. -/
inductive SchemaSpec where
  | single (s : ElemSchema)
  | alts (ss : List ElemSchema)

/-- A child element produced by `Context._traverse_dict_schema`: its
class, its `name` (schema key, or the raw key for unknown elements) and
its `initial_value` (`None` when the declared key is absent). -/
structure TraversedChild where
  cls : ElemCls
  name : Value
  value : Option Value

/-- `Context._traverse_dict_schema`: one fixed-mapping traversal step.
Every declared key yields a child (with absent value when missing from
the document), and every document key not declared in the schema yields
an `UnknownElement` child rather than being dropped.  Non-dict raw values
produce no children. -/
def _traverse_dict_schema (schema : List (String × ElemCls)) (initial_value : Value) :
    List TraversedChild :=
  match initial_value with
  | .pdict entries =>
    let declared := schema.map (fun nc =>
      match dictLookup entries (.pstr nc.1) with
      | none => TraversedChild.mk nc.2 (.pstr nc.1) none
      | some v => TraversedChild.mk nc.2 (.pstr nc.1) (some v))
    let parsed_names := schema.filterMap (fun nc =>
      if (dictLookup entries (.pstr nc.1)).isSome then some nc.1 else none)
    let unknowns := entries.filterMap (fun kv =>
      if parsed_names.any (fun n => scalarBeq kv.1 (.pstr n)) then none
      else some (TraversedChild.mk .unknownElement kv.1 (some kv.2)))
    declared ++ unknowns
  | _ => []

/-- A `DSLParsingFormatException`: error code 1, a message, and the
optionally attached responsible child element. -/
structure FormatErr where
  code : Nat
  message : String
  element : Option TraversedChild := none

/-- Errors escaping element-schema validation: format exceptions, or the
`ValueError('Illegal state ...')` used for broken internal invariants. -/
inductive PErr where
  | fmt (e : FormatErr)
  | illegalState (msg : String)

/-- Python `key in schema` for a fixed-mapping schema (schema keys are
strings). -/
def keyInSchema (entries : List (String × ElemCls)) (k : Value) : Bool :=
  match k with
  | .pstr s => entries.any (fun e => decide (e.1 = s))
  | _ => false

/-- Repr of a list of strings, as Python formats `schema.keys()`. -/
def reprStrList (names : List String) : String :=
  "[" ++ String.intercalate ", " (names.map (fun s => "\x27" ++ s ++ "\x27")) ++ "]"

/-- `_expected_type_message` from `parser.py`. -/
def _expected_type_message (value : Value) (expected : String) : String :=
  "Expected \x27" ++ expected ++ "\x27 type but found \x27" ++ user_type_of value ++
    "\x27 type"

/-- The expected-type name of a leaf schema (`_py_type_to_user_type` of a
single type, or of a tuple of types). -/
def leafExpected (types : List PyType) : String :=
  match types with
  | [t] => pyTypeUserName t
  | _ => reprStrList (types.map pyTypeUserName)

/-- `_validate_schema` from `parser.py`: sequential checks on one schema
descriptor — mapping-shaped schemas need a dict value with string keys;
in strict mode a fixed-mapping schema rejects undeclared keys (attaching
the offending child element when one matches); list schemas need a
sequence; leaf schemas check the value's runtime type. -/
def _validate_schema (schema : ElemSchema) (strict : Bool) (value : Value)
    (children : List TraversedChild) : Except FormatErr Unit := do
  match schema with
  | .fixed _ | .dictOf _ =>
    match value with
    | .pdict entries =>
      match entries.find? (fun kv => !kv.1.isStr) with
      | some kv =>
        throw { code := 1
                message := "Dict keys must be strings but found \x27" ++ pyStr kv.1 ++
                  "\x27 of type \x27" ++ user_type_of kv.1 ++ "\x27" }
      | none => pure ()
    | _ => throw { code := 1, message := _expected_type_message value "dict" }
  | _ => pure ()
  match schema, strict with
  | .fixed sentries, true =>
    match value with
    | .pdict entries =>
      match entries.find? (fun kv => !keyInSchema sentries kv.1) with
      | some kv =>
        throw { code := 1
                message := "\x27" ++ pyStr kv.1 ++
                  "\x27 is not in schema. Valid schema values: " ++
                  reprStrList (sentries.map (fun e => e.1))
                element := children.find? (fun c => scalarBeq c.name kv.1) }
      | none => pure ()
    | _ => pure ()
  | _, _ => pure ()
  match schema with
  | .listOf _ =>
    match value with
    | .plist _ => pure ()
    | _ => throw { code := 1, message := _expected_type_message value "list" }
  | _ => pure ()
  match schema with
  | .leaf types =>
    if types.any (fun t => isinstance value t) then pure ()
    else throw { code := 1, message := _expected_type_message value (leafExpected types) }
  | _ => pure ()

/-- An `Element` instance as seen by `_validate_element_schema`: its
name, raw initial value (`None` when absent), class-level `required`
flag and `schema`, and its children in the containment tree. -/
structure PElement where
  name : Value
  initial_value : Option Value
  required : Bool := false
  schemaSpec : SchemaSpec
  children : List TraversedChild := []

/-- The `for ... else` loop of `_validate_element_schema` over an
alternatives-list schema: try each alternative in order, stop at the
first that validates, keep only the last format error; when every
alternative failed re-raise the last error (or an illegal-state error for
an empty list, which schema-API validation rules out). -/
def validateAlternatives (strict : Bool) (value : Value)
    (children : List TraversedChild) :
    List ElemSchema → Option FormatErr → Except PErr Unit
  | [], last =>
    match last with
    | some e => .error (.fmt e)
    | none =>
      .error (.illegalState "Illegal state should have been identified by schema API validation")
  | s :: rest, _ =>
    match _validate_schema s strict value children with
    | .ok _ => .ok ()
    | .error e => validateAlternatives strict value children rest (some e)

/-- `_validate_element_schema` from `parser.py`: required-but-missing
check, early return on absent value, then schema validation — directly,
or through the alternatives loop when the schema is a list. -/
def _validate_element_schema (element : PElement) (strict : Bool) : Except PErr Unit :=
  match element.initial_value with
  | none =>
    if element.required then
      .error (.fmt
        { code := 1
          message := "\x27" ++ pyStr element.name ++
            "\x27 key is required but it is currently missing" })
    else .ok ()
  | some value =>
    match element.schemaSpec with
    | .single s =>
      match _validate_schema s strict value element.children with
      | .ok _ => .ok ()
      | .error e => .error (.fmt e)
    | .alts ss => validateAlternatives strict value element.children ss none

/-- `_sort_requirements_result` from `parser.py`: keep all matches as a
list under `multiple_results`; otherwise demand exactly one match —
raising a format error when the requirement is required, returning `None`
for an optional requirement with no match, and raising
`ValueError('Illegal state')` for an optional requirement with several
matches. -/
def _sort_requirements_result (result : List Value) (requirement : Requirement) :
    Except PErr Value :=
  if requirement.multiple_results then .ok (.plist result)
  else if result.length ≠ 1 then
    if requirement.required then
      .error (.fmt
        { code := 1
          message := "Expected exactly one result for requirement \x27" ++
            requirement.name ++ "\x27 but found " ++
            (if result.isEmpty then "none" else pyRepr (.plist result)) })
    else if result.isEmpty then .ok .pnone
    else .error (.illegalState "Illegal state")
  else .ok (result.headD .pnone)

/-- A small concrete acyclic context: a root with two children, one of
which (`1`) requires the other (`2`). -/
def c1ctx : PContext :=
  { nodes := [0, 1, 2]
    name_of := fun n => toString n
    tree_edges := [(0, 1), (0, 2)]
    element_type_to_elements := [("root", [0]), ("a", [1]), ("b", [2])]
    requires_of := fun t => if t = "a" then [("b", [ReqSpec.str "val"])] else [] }

/-- A small concrete cyclic context: two elements requiring each other. -/
def c2ctx : PContext :=
  { nodes := [0, 1]
    name_of := fun n => toString n
    tree_edges := []
    element_type_to_elements := [("a", [0]), ("b", [1])]
    requires_of := fun t =>
      if t = "a" then [("b", [ReqSpec.str "x"])]
      else if t = "b" then [("a", [ReqSpec.str "y"])]
      else [] }

/-- Errors raised by the intrinsic function engine (`functions.py`):
Python `ValueError`/`TypeError`/`KeyError`/`IndexError`/`RuntimeError`,
the structured `FunctionEvaluationError`, and `RecursionError` for the
source's unbounded recursions (modelled with fuel). -/
inductive FuncErr where
  | valueError (msg : String)
  | typeError (msg : String)
  | keyError (msg : String)
  | indexError (msg : String)
  | runtimeError (msg : String)
  | functionEvaluation (name : String) (msg : String)
  | recursionError

/-- The `SELF`, `SOURCE` and `TARGET` reference constants. -/
def SELF : String := "SELF"

def SOURCE : String := "SOURCE"

def TARGET : String := "TARGET"

/-- Python truthiness of a document value (`if not ref: ...`). -/
def Value.falsy : Value → Bool
  | .pnone => true
  | .pbool b => !b
  | .pint n => n == 0
  | .pstr s => s == ""
  | .plist l => l.isEmpty
  | .pdict e => e.isEmpty

/-- `context.get(key)` on the evaluation context dict (`None` when the
key is missing or the context is not a dict). -/
def ctxGet (context : Value) (key : String) : Value :=
  match context with
  | .pdict es => (dictLookup es (.pstr key)).getD .pnone
  | _ => .pnone

/-- The four function classes registered in `functions.py` at import
time. -/
inductive FunctionKind where
  | getInputK
  | getPropertyK
  | getAttributeK
  | concatK
deriving DecidableEq, Repr

/-- The `_template_functions` registry populated by the `@register`
decorators of `functions.py`. -/
def default_registry : List (String × FunctionKind) :=
  [("get_input", .getInputK), ("get_property", .getPropertyK),
   ("get_attribute", .getAttributeK), ("concat", .concatK)]

/-- The common `Function.__init__` data: lexical scope, evaluation
context (a Python value: a dict at runtime, `None` by default),
diagnostic path, and the raw single-key mapping the function was parsed
from. -/
structure FunctionData where
  scope : Option String := none
  context : Value := .pnone
  path : Option String := none
  raw : Value := .pnone

/-- `str(self.path)` as used in diagnostics (`None` prints as such). -/
def pathStr : Option String → String
  | some s => s
  | none => "None"

/-- A parsed intrinsic function instance: `GetInput`, `GetProperty`,
`GetAttribute` or `Concat` with the argument fields their `parse_args`
extract. -/
inductive TemplateFunction where
  | getInput (d : FunctionData) (input_name : String)
  | getProperty (d : FunctionData) (node_name : Value) (property_path : List Value)
  | getAttribute (d : FunctionData) (node_name : Value) (attribute_path : List Value)
  | concatF (d : FunctionData) (separator : String) (joined : List Value)

/-- Result of the module-level `parse`: a `Function` instance, or the
raw value passed through unchanged. -/
inductive ParseResult where
  | func (f : TemplateFunction)
  | value (v : Value)

/-- Instantiating one function class: the class constructor runs
`parse_args`, which fails fast (`ValueError`) on malformed argument
shapes. -/
def mkFunction (kind : FunctionKind) (args : Value) (d : FunctionData) :
    Except FuncErr TemplateFunction :=
  match kind with
  | .getInputK =>
    match args with
    | .pstr s => .ok (.getInput d s)
    | _ =>
      .error (.valueError ("get_input function argument should be a string in " ++
        pyStr d.context ++ " but is \x27" ++ pyStr args ++ "\x27."))
  | .getPropertyK =>
    match args with
    | .plist (a :: b :: rest) => .ok (.getProperty d a (b :: rest))
    | _ =>
      .error (.valueError ("Illegal arguments passed to get_property function. " ++
        "Expected: <node_name, property_name [, nested-property-1, ... ]> but got: " ++
        pyStr args ++ "."))
  | .getAttributeK =>
    match args with
    | .plist (a :: b :: rest) => .ok (.getAttribute d a (b :: rest))
    | _ =>
      .error (.valueError ("Illegal arguments passed to get_attribute function. " ++
        "Expected: <node_name, attribute_name [, nested-attr-1, ...]>but got: " ++
        pyStr args ++ "."))
  | .concatK =>
    match args with
    | .plist items => .ok (.concatF d "" items)
    | _ =>
      .error (.valueError ("Illegal arguments passed to concat function. " ++
        "Expected: [arg1, arg2, ...] but got: " ++ pyStr args ++ "."))

/-- The module-level `parse` of `functions.py`: a single-key mapping
whose key is a registered function name becomes a typed `Function`
instance carrying its raw form; anything else passes through
unchanged. -/
def parseFn (registry : List (String × FunctionKind)) (raw_function : Value)
    (scope : Option String := none) (context : Value := .pnone)
    (path : Option String := none) : Except FuncErr ParseResult :=
  match raw_function with
  | .pdict [(k, args)] =>
    match k with
    | .pstr name =>
      match registry.find? (fun e => decide (e.1 = name)) with
      | some e =>
        (mkFunction e.2 args
          { scope := scope, context := context, path := path, raw := raw_function }).map
          ParseResult.func
      | none => .ok (.value raw_function)
    | _ => .ok (.value raw_function)
  | _ => .ok (.value raw_function)

/-- A node-instance relationship record (`target_name`, `target_id`). -/
structure Rel where
  target_name : Value
  target_id : Value

/-- A template-level relationship record of a plan node
(`type_hierarchy`, `target_id`). -/
structure NodeRel where
  type_hierarchy : List Value
  target_id : Value

/-- A scaling-group record of a node instance (`name`, `id`). -/
structure ScalingGroup where
  name : Value
  id : Value

/-- A live node instance as returned by the host accessors. -/
structure NodeInstance where
  id : Value
  node_id : Value
  runtime_properties : Value
  relationships : Option (List Rel)
  scaling_groups : Option (List ScalingGroup)

/-- A plan node as returned by the host accessor. -/
structure PlanNode where
  id : Value
  properties : Value
  relationships : Option (List NodeRel)

/-- `RuntimeEvaluationStorage`: the three host accessor callbacks.  The
source wraps them in a per-evaluation read-through cache
(`_node_to_node_instances`, `_node_instances`, `_nodes`); the cache is
write-once memoization and never written back, so for pure accessors it
is semantically the identity and is elided here. -/
structure Storage where
  get_node_instances : Value → List NodeInstance
  get_node_instance : Value → NodeInstance
  get_node : Value → PlanNode

/-- `list_to_string` from `_get_property_value`. -/
def list_to_string (property_path : List Value) : String :=
  String.intercalate "." (property_path.map pyStr)

/-- Python `value[i]` on a list (negative indices wrap; bools index as
ints). -/
def pyListIndex (items : List Value) (i : Int) : Option Value :=
  let j := if i < 0 then i + items.length else i
  if 0 ≤ j ∧ j < items.length then items.get? j.toNat else none

/-- The walking loop of `_get_property_value`, with the full path kept
for diagnostics: dict steps look the key up (missing key: `KeyError` or
`None`), list steps index (non-int segment: `TypeError`; out of range:
`IndexError` or `None`), any other value: `KeyError` or `None`. -/
def getPropGo (node_name : Value) (full_path : List Value) (context_path : String)
    (raise_if_not_found : Bool) : Value → List Value → Except FuncErr Value
  | value, [] => .ok value
  | value, path :: rest =>
    match value with
    | .pdict entries =>
      match dictLookup entries path with
      | some v => getPropGo node_name full_path context_path raise_if_not_found v rest
      | none =>
        if raise_if_not_found then
          .error (.keyError ("Node template property \x27" ++ pyStr node_name ++
            ".properties." ++ list_to_string full_path ++ "\x27 referenced from \x27" ++
            context_path ++ "\x27 doesn\x27t exist."))
        else .ok .pnone
    | .plist items =>
      match path with
      | .pint i =>
        match pyListIndex items i with
        | some v => getPropGo node_name full_path context_path raise_if_not_found v rest
        | none =>
          if raise_if_not_found then
            .error (.indexError ("Node template property \x27" ++ pyStr node_name ++
              ".properties." ++ list_to_string full_path ++ "\x27 referenced from \x27" ++
              context_path ++ "\x27 index is out of range. Got " ++ pyStr path ++
              " but list size is " ++ toString items.length ++ "."))
          else .ok .pnone
      | .pbool b =>
        match pyListIndex items (if b then 1 else 0) with
        | some v => getPropGo node_name full_path context_path raise_if_not_found v rest
        | none =>
          if raise_if_not_found then
            .error (.indexError ("Node template property \x27" ++ pyStr node_name ++
              ".properties." ++ list_to_string full_path ++ "\x27 referenced from \x27" ++
              context_path ++ "\x27 index is out of range. Got " ++ pyStr path ++
              " but list size is " ++ toString items.length ++ "."))
          else .ok .pnone
      | _ =>
        .error (.typeError ("Node template property \x27" ++ pyStr node_name ++
          ".properties." ++ list_to_string full_path ++ "\x27 referenced from \x27" ++
          context_path ++ "\x27 is expected " ++ pyStr path ++
          " to be an int but it is a " ++ pyTypeName path ++ "."))
    | _ =>
      if raise_if_not_found then
        .error (.keyError ("Node template property \x27" ++ pyStr node_name ++
          ".properties." ++ list_to_string full_path ++ "\x27 referenced from \x27" ++
          context_path ++ "\x27 doesn\x27t exist."))
      else .ok .pnone

/-- `_get_property_value` from `functions.py`: walk `property_path`
through nested `properties`, raising precise diagnostics or returning
`None` depending on `raise_if_not_found`. -/
def _get_property_value (node_name : Value) (properties : Value)
    (property_path : List Value) (context_path : String)
    (raise_if_not_found : Bool := true) : Except FuncErr Value :=
  getPropGo node_name property_path context_path raise_if_not_found properties property_path

/-- `GetAttribute._validate_ref`: a falsy instance reference in the
request context is a `FunctionEvaluationError`. -/
def _validate_ref (ref : Value) (ref_name : String) (path : Option String)
    (attribute_path : List Value) : Except FuncErr Unit :=
  if ref.falsy then
    .error (.functionEvaluation "get_attribute"
      (ref_name ++ " is missing in request context in " ++ pathStr path ++
        " for attribute " ++ pyStr (.plist attribute_path)))
  else .ok ()

/-- Deduplicate with Python equality (the model of building a `set`
of scalar ids, keeping first-seen order). -/
def valueDedup (l : List Value) : List Value :=
  l.foldl (fun acc v => if acc.any (fun w => scalarBeq w v) then acc else acc ++ [v]) []

/-- `GetAttribute._resolve_node_by_relationship`: follow the evaluating
instance's relationships whose `target_name` matches the referenced node
name; succeed only when exactly one distinct target instance id is found
and it denotes one of the candidate instances. -/
def _resolve_node_by_relationship (node_name : Value) (context : Value)
    (storage : Storage) (node_instances : List NodeInstance) :
    Except FuncErr (Option NodeInstance) :=
  let self_instance_id := ctxGet context "self"
  if self_instance_id.falsy then .ok none
  else
    let self_instance := storage.get_node_instance self_instance_id
    let target_ids := valueDedup
      (((self_instance.relationships.getD []).filter
        (fun r => scalarBeq r.target_name node_name)).map (fun r => r.target_id))
    if target_ids.length ≠ 1 then .ok none
    else
      match node_instances.find? (fun ni => scalarBeq ni.id (target_ids.headD .pnone)) with
      | some ni => .ok (some ni)
      | none => .error (.runtimeError "Illegal state")

/-- Modelled from the spec: the `contained_in` relationship type constant
obtained through `RelationshipMapping().contained_in_relationship_type`
(`elements/relationships.py`, not under `src/`); only its identity
matters for the scaling-group walk. -/
def contained_in_relationship_type : Value := .pstr "contained_in"

/-- `_parent_instance` inside `_resolve_node_by_scaling_group`: follow
the first template relationship whose hierarchy contains the
contained-in type to the matching instance relationship's target. -/
def _parent_instance (storage : Storage) (inst : NodeInstance) :
    Except FuncErr (Option NodeInstance) :=
  match (((storage.get_node inst.node_id).relationships).getD []).find?
      (fun r => r.type_hierarchy.any (fun t => scalarBeq t contained_in_relationship_type)) with
  | none => .ok none
  | some rel =>
    match inst.relationships with
    | none => .error (.typeError "\x27NoneType\x27 object is not iterable")
    | some irels =>
      match (irels.filter (fun r => scalarBeq r.target_name rel.target_id)).map
          (fun r => r.target_id) with
      | [] => .error (.indexError "list index out of range")
      | tid :: _ => .ok (some (storage.get_node_instance tid))

/-- `_containing_groups`: the ordered chain of scaling-group names
containing an instance, walking contained-in parents transitively
(fuel models Python's recursion limit on cyclic containment). -/
def _containing_groups (storage : Storage) : Nat → NodeInstance → Except FuncErr (List Value)
  | 0, _ => .error .recursionError
  | fuel + 1, inst => do
    let base := (inst.scaling_groups.getD []).map (fun g => g.name)
    match ← _parent_instance storage inst with
    | some p => do
      let rest ← _containing_groups storage fuel p
      return base ++ rest
    | none => return base

/-- `_minimal_shared_group`: the innermost scaling group shared by the
two instances' containing chains. -/
def _minimal_shared_group (storage : Storage) (fuel : Nat)
    (instance_a instance_b : NodeInstance) : Except FuncErr (Option Value) := do
  let a_containing_groups ← _containing_groups storage fuel instance_a
  let b_containing_groups ← _containing_groups storage fuel instance_b
  let shared := a_containing_groups.filter
    (fun g => b_containing_groups.any (fun h => scalarBeq h g))
  if shared.isEmpty then return none
  else
    match a_containing_groups.find? (fun g => shared.any (fun h => scalarBeq h g)) with
    | some g => return (some g)
    | none => .error (.runtimeError "Illegal state")

/-- `_group_instance`: the concrete group-instance id under `group_name`
for an instance, walking parents when the group is not direct. -/
def _group_instance (storage : Storage) : Nat → NodeInstance → Value → Except FuncErr Value
  | 0, _, _ => .error .recursionError
  | fuel + 1, node_instance, group_name =>
    match (node_instance.scaling_groups.getD []).find?
        (fun sg => scalarBeq sg.name group_name) with
    | some sg => .ok sg.id
    | none => do
      match ← _parent_instance storage node_instance with
      | none => .error (.runtimeError "Illegal state")
      | some p => _group_instance storage fuel p group_name

/-- The filtering comprehension of `_resolve_node_instance`: candidates
whose group instance under the shared group matches the context's. -/
def filterByGroupInstance (storage : Storage) (fuel : Nat) (group : Value)
    (context_group_instance : Value) :
    List NodeInstance → Except FuncErr (List NodeInstance)
  | [] => .ok []
  | i :: rest => do
    let gi ← _group_instance storage fuel i group
    let tail ← filterByGroupInstance storage fuel group context_group_instance rest
    if scalarBeq gi context_group_instance then return i :: tail else return tail

/-- `_resolve_node_instance` inside `_resolve_node_by_scaling_group`. -/
def _resolve_node_instance_sg (storage : Storage) (fuel : Nat)
    (node_instances : List NodeInstance) (context_instance_id : Value) :
    Except FuncErr (Option NodeInstance) := do
  let context_instance := storage.get_node_instance context_instance_id
  match node_instances with
  | [] => .error (.indexError "list index out of range")
  | first :: _ =>
    match ← _minimal_shared_group storage fuel context_instance first with
    | none => return none
    | some minimal_shared_group => do
      let context_group_instance ←
        _group_instance storage fuel context_instance minimal_shared_group
      let result_node_instances ←
        filterByGroupInstance storage fuel minimal_shared_group context_group_instance
          node_instances
      match result_node_instances with
      | [ni] => return (some ni)
      | _ => return none

/-- `GetAttribute._resolve_node_by_scaling_group`. -/
def _resolve_node_by_scaling_group (context : Value) (storage : Storage) (fuel : Nat)
    (node_instances : List NodeInstance) : Except FuncErr (Option NodeInstance) := do
  let self_instance_id := ctxGet context "self"
  let source_instance_id := ctxGet context "source"
  let target_instance_id := ctxGet context "target"
  if !self_instance_id.falsy then
    _resolve_node_instance_sg storage fuel node_instances self_instance_id
  else if source_instance_id.falsy then return none
  else
    match ← _resolve_node_instance_sg storage fuel node_instances source_instance_id with
    | some ni => return (some ni)
    | none => _resolve_node_instance_sg storage fuel node_instances target_instance_id

/-- `GetAttribute._resolve_node_instance_by_name`: a missing node is an
error; exactly one live instance resolves directly; otherwise try
relationship disambiguation, then scaling-group disambiguation, then
fail as ambiguous. -/
def _resolve_node_instance_by_name (node_name : Value) (context : Value)
    (storage : Storage) (fuel : Nat) : Except FuncErr NodeInstance :=
  match storage.get_node_instances node_name with
  | [] =>
    .error (.functionEvaluation "get_attribute"
      ("Node specified in function does not exist: " ++ pyStr node_name ++ "."))
  | [ni] => .ok ni
  | node_instances => do
    match ← _resolve_node_by_relationship node_name context storage node_instances with
    | some ni => return ni
    | none =>
      match ← _resolve_node_by_scaling_group context storage fuel node_instances with
      | some ni => return ni
      | none =>
        .error (.functionEvaluation "get_attribute"
          ("More than one node instance found for node \x22" ++ pyStr node_name ++
            "\x22. Cannot resolve a node instance unambiguously."))

/-- The instance-resolution step of `GetAttribute.evaluate_runtime`:
`SELF`/`SOURCE`/`TARGET` resolve through the request context (after
`_validate_ref`), a plain node name through
`_resolve_node_instance_by_name`. -/
def getAttributeResolveInstance (d : FunctionData) (node_name : Value)
    (attribute_path : List Value) (storage : Storage) (fuel : Nat) :
    Except FuncErr NodeInstance :=
  if scalarBeq node_name (.pstr SELF) then do
    let node_instance_id := ctxGet d.context "self"
    _validate_ref node_instance_id SELF d.path attribute_path
    return storage.get_node_instance node_instance_id
  else if scalarBeq node_name (.pstr SOURCE) then do
    let node_instance_id := ctxGet d.context "source"
    _validate_ref node_instance_id SOURCE d.path attribute_path
    return storage.get_node_instance node_instance_id
  else if scalarBeq node_name (.pstr TARGET) then do
    let node_instance_id := ctxGet d.context "target"
    _validate_ref node_instance_id TARGET d.path attribute_path
    return storage.get_node_instance node_instance_id
  else _resolve_node_instance_by_name node_name d.context storage fuel

/-- `GetAttribute.evaluate_runtime`: resolve the instance reference,
then read the attribute path from the instance's runtime properties,
falling back to the node's static properties when the runtime value is
`None`. -/
def getAttributeEvaluateRuntime (d : FunctionData) (node_name : Value)
    (attribute_path : List Value) (storage : Storage) (fuel : Nat) :
    Except FuncErr Value := do
  let node_instance ← getAttributeResolveInstance d node_name attribute_path storage fuel
  let value ← _get_property_value node_instance.node_id node_instance.runtime_properties
    attribute_path (pathStr d.path) false
  if value.isNone then
    let node := storage.get_node node_instance.node_id
    _get_property_value node.id node.properties attribute_path (pathStr d.path) false
  else return value

/-- `Concat.join`: the separator-join of the stringified arguments. -/
def concatJoin (separator : String) (joined : List Value) : String :=
  String.intercalate separator (joined.map pyStr)

/-- `Concat.evaluate`: re-parse each argument; if any argument is changed
by parsing (i.e. is itself a recognizable function form), keep the raw
unevaluated form; otherwise join.  A malformed nested function form makes
the inner `parse` raise. -/
def concatEvaluateGo (registry : List (String × FunctionKind)) (raw : Value)
    (separator : String) (joined : List Value) :
    List Value → Except FuncErr Value
  | [] => .ok (.pstr (concatJoin separator joined))
  | joined_value :: rest => do
    match ← parseFn registry joined_value with
    | .func _ => return raw
    | .value _ => concatEvaluateGo registry raw separator joined rest

/-- `Concat.evaluate` over the function's own argument list. -/
def concatEvaluate (registry : List (String × FunctionKind)) (d : FunctionData)
    (separator : String) (joined : List Value) : Except FuncErr Value :=
  concatEvaluateGo registry d.raw separator joined joined

/-- `Concat.evaluate_runtime`: delegates to `evaluate` with no plan. -/
def concatEvaluateRuntime (registry : List (String × FunctionKind)) (d : FunctionData)
    (separator : String) (joined : List Value) (_storage : Storage) :
    Except FuncErr Value :=
  concatEvaluate registry d separator joined

/-- Dispatch of `evaluate_runtime` over the four function kinds:
`get_input` and `get_property` unconditionally raise
`RuntimeError('runtime evaluation for <name> is not supported')`. -/
def evaluateRuntimeFn (registry : List (String × FunctionKind))
    (f : TemplateFunction) (storage : Storage) (fuel : Nat) : Except FuncErr Value :=
  match f with
  | .getInput _ _ =>
    .error (.runtimeError "runtime evaluation for get_input is not supported")
  | .getProperty _ _ _ =>
    .error (.runtimeError "runtime evaluation for get_property is not supported")
  | .getAttribute d node_name attribute_path =>
    getAttributeEvaluateRuntime d node_name attribute_path storage fuel
  | .concatF d separator joined =>
    concatEvaluateRuntime registry d separator joined storage

/-- `value` is a recognizable function form: a single-key mapping whose
key is a registered function name. -/
def isFunctionForm (registry : List (String × FunctionKind)) (v : Value) : Bool :=
  match v with
  | .pdict [(k, _)] =>
    match k with
    | .pstr name => (registry.find? (fun e => decide (e.1 = name))).isSome
    | _ => false
  | _ => false

mutual

/-- No function form occurs anywhere in the value, at any nesting
depth. -/
def functionFree (registry : List (String × FunctionKind)) : Value → Bool
  | .pdict es => !isFunctionForm registry (.pdict es) && functionFreeEntries registry es
  | .plist xs => functionFreeList registry xs
  | _ => true

def functionFreeList (registry : List (String × FunctionKind)) : List Value → Bool
  | [] => true
  | x :: xs => functionFree registry x && functionFreeList registry xs

def functionFreeEntries (registry : List (String × FunctionKind)) :
    List (Value × Value) → Bool
  | [] => true
  | kv :: rest => functionFree registry kv.2 && functionFreeEntries registry rest

end

mutual

/-- Structural size of a document value (drives the fuel bounds). -/
def vsize : Value → Nat
  | .pdict es => ventriesSize es + 1
  | .plist xs => vlistSize xs + 1
  | _ => 1

def vlistSize : List Value → Nat
  | [] => 0
  | x :: xs => vsize x + vlistSize xs

def ventriesSize : List (Value × Value) → Nat
  | [] => 0
  | kv :: rest => vsize kv.2 + ventriesSize rest

end

mutual

/-- Modelled from the spec: `scan.scan_properties` (module
`aria/parser/scan.py`, not under `src/`) — "a generic scan-and-replace
walker applies one evaluator uniformly across an arbitrary nested
document": the handler is applied at every node and the walker recurses
into the (possibly replaced) containers.  Fuel bounds the mutual
recursion with the handler, whose source loop is not depth-bounded. -/
def scanProps (registry : List (String × FunctionKind))
    (evaluator : TemplateFunction → Except FuncErr Value)
    (scope : Option String) (context : Value) (path : Option String) :
    Nat → Value → Except FuncErr Value
  | 0, _ => .error .recursionError
  | fuel + 1, v => do
    let v2 ← handlerLoop registry evaluator scope context path fuel false v
    match v2 with
    | .pdict es => do
      let es2 ← scanPropsEntries registry evaluator scope context path fuel es
      return .pdict es2
    | .plist xs => do
      let xs2 ← scanPropsList registry evaluator scope context path fuel xs
      return .plist xs2
    | s => return s
termination_by fuel _ => (fuel, 1, 0)

def scanPropsEntries (registry : List (String × FunctionKind))
    (evaluator : TemplateFunction → Except FuncErr Value)
    (scope : Option String) (context : Value) (path : Option String) :
    Nat → List (Value × Value) → Except FuncErr (List (Value × Value))
  | _, [] => .ok []
  | fuel, kv :: rest => do
    let x ← scanProps registry evaluator scope context path fuel kv.2
    let tail ← scanPropsEntries registry evaluator scope context path fuel rest
    return (kv.1, x) :: tail
termination_by fuel es => (fuel, 2, es.length)

def scanPropsList (registry : List (String × FunctionKind))
    (evaluator : TemplateFunction → Except FuncErr Value)
    (scope : Option String) (context : Value) (path : Option String) :
    Nat → List Value → Except FuncErr (List Value)
  | _, [] => .ok []
  | fuel, x :: rest => do
    let y ← scanProps registry evaluator scope context path fuel x
    let tail ← scanPropsList registry evaluator scope context path fuel rest
    return y :: tail
termination_by fuel xs => (fuel, 2, xs.length)

/-- The handler closure built by `_handler` from `functions.py`: parse
the value; a non-function breaks out immediately returning the value
unchanged; a function is evaluated, with re-scanning of the result and a
fixed-point check (`scanned and previous == evaluated_value`) bounding
repeated evaluation. -/
def handlerLoop (registry : List (String × FunctionKind))
    (evaluator : TemplateFunction → Except FuncErr Value)
    (scope : Option String) (context : Value) (path : Option String) :
    Nat → Bool → Value → Except FuncErr Value
  | 0, _, _ => .error .recursionError
  | fuel + 1, scanned, evaluated_value => do
    match ← parseFn registry evaluated_value scope context path with
    | .value _ => return evaluated_value
    | .func func => do
      let previous_evaluated_value := evaluated_value
      let new_value ← evaluator func
      if scanned && previous_evaluated_value.beq new_value then return new_value
      else do
        let scanned_value ← scanProps registry evaluator scope context path fuel new_value
        handlerLoop registry evaluator scope context path fuel true scanned_value
termination_by fuel _ _ => (fuel, 0, 0)

end

/-- `evaluate_functions` from `functions.py`: the runtime evaluation
pass, scanning the payload with the runtime evaluation handler built
over the storage accessors. -/
def evaluate_functions (registry : List (String × FunctionKind)) (payload : Value)
    (context : Value) (storage : Storage) (fuel : Nat) : Except FuncErr Value :=
  scanProps registry (fun f => evaluateRuntimeFn registry f storage fuel)
    none context (some "payload") fuel payload

/-- A trivial storage whose accessors return empty/placeholder data. -/
def emptyStorage : Storage :=
  { get_node_instances := fun _ => []
    get_node_instance := fun _ =>
      { id := .pnone, node_id := .pnone, runtime_properties := .pnone
        relationships := none, scaling_groups := none }
    get_node := fun _ =>
      { id := .pnone, properties := .pnone, relationships := none } }

/-- A concrete node instance of template `db` with one runtime
property. -/
def c7inst : NodeInstance :=
  { id := .pstr "db_1", node_id := .pstr "db"
    runtime_properties := .pdict [(.pstr "port", .pint 8080)]
    relationships := none, scaling_groups := none }

/-- The `db` plan node backing `c7inst`. -/
def c7node : PlanNode :=
  { id := .pstr "db", properties := .pdict [], relationships := none }

/-- A storage reporting exactly one live instance for every node name. -/
def c7storage : Storage :=
  { get_node_instances := fun _ => [c7inst]
    get_node_instance := fun _ => c7inst
    get_node := fun _ => c7node }

theorem pickSource_spec_some {edges : List (Nat × Nat)} {remaining : List Nat} {v : Nat}
    (h : pickSource edges remaining = some v) :
    v ∈ remaining ∧ ∀ u ∈ remaining, (u, v) ∉ edges := by
  have hmem := List.mem_of_find?_eq_some h
  have hp := List.find?_some h
  refine ⟨hmem, ?_⟩
  intro u hu hedge
  have : hasIncoming edges remaining v = false := by
    cases hcase : hasIncoming edges remaining v with
    | false => rfl
    | true => rw [hcase] at hp; simp at hp
  rw [hasIncoming] at this
  have hany : ∃ p ∈ edges, (decide (p.2 = v) && decide (p.1 ∈ remaining)) = true :=
    ⟨(u, v), hedge, by simp [hu]⟩
  rw [← List.any_eq_true] at hany
  rw [this] at hany
  exact Bool.false_ne_true hany

theorem pickSource_spec_none {edges : List (Nat × Nat)} {remaining : List Nat}
    (h : pickSource edges remaining = none) :
    ∀ v ∈ remaining, ∃ u ∈ remaining, (u, v) ∈ edges := by
  intro v hv
  have hfa := List.find?_eq_none.mp h v hv
  have hin : hasIncoming edges remaining v = true := by
    cases hcase : hasIncoming edges remaining v with
    | true => rfl
    | false => rw [hcase] at hfa; simp at hfa
  rw [hasIncoming, List.any_eq_true] at hin
  obtain ⟨p, hp, hpred⟩ := hin
  simp only [Bool.and_eq_true, decide_eq_true_eq] at hpred
  exact ⟨p.1, hpred.2, by have := hpred.1; rw [← this]; exact hp⟩

theorem kahnRun_append_perm (edges : List (Nat × Nat)) :
    ∀ fuel remaining,
      ((kahnRun edges fuel remaining).1 ++ (kahnRun edges fuel remaining).2).Perm remaining := by
  intro fuel
  induction fuel with
  | zero => intro remaining; simp [kahnRun]
  | succ fuel ih =>
    intro remaining
    rw [kahnRun]
    cases hpick : pickSource edges remaining with
    | none => simp
    | some v =>
      have hv := (pickSource_spec_some hpick).1
      simp only [List.cons_append]
      exact ((ih (remaining.erase v)).cons v).trans (List.perm_cons_erase hv).symm

theorem kahnRun_residual_stuck (edges : List (Nat × Nat)) :
    ∀ fuel remaining, remaining.length ≤ fuel →
      ∀ v ∈ (kahnRun edges fuel remaining).2,
        ∃ u ∈ (kahnRun edges fuel remaining).2, (u, v) ∈ edges := by
  intro fuel
  induction fuel with
  | zero =>
    intro remaining hlen
    have : remaining = [] := List.length_eq_zero.mp (Nat.le_zero.mp hlen)
    subst this
    intro v hv
    simp [kahnRun] at hv
  | succ fuel ih =>
    intro remaining hlen
    rw [kahnRun]
    cases hpick : pickSource edges remaining with
    | none =>
      simp only
      exact pickSource_spec_none hpick
    | some v =>
      simp only
      apply ih
      have hv := (pickSource_spec_some hpick).1
      have := List.length_erase_of_mem hv
      omega

theorem posOf_cons_self (a : Nat) (l : List Nat) : posOf a (a :: l) = 0 := by
  simp [posOf]

theorem posOf_cons_ne (a b : Nat) (l : List Nat) (h : a ≠ b) :
    posOf a (b :: l) = posOf a l + 1 := by
  simp [posOf, h]

theorem kahnRun_order_sorted (edges : List (Nat × Nat)) :
    ∀ fuel remaining, (kahnRun edges fuel remaining).2 = [] →
      ∀ u v, (u, v) ∈ edges → u ∈ remaining → v ∈ remaining →
        posOf u (kahnRun edges fuel remaining).1 < posOf v (kahnRun edges fuel remaining).1 := by
  intro fuel
  induction fuel with
  | zero =>
    intro remaining hres u v hedge hu _
    rw [kahnRun] at hres
    simp at hres
    subst hres
    simp at hu
  | succ fuel ih =>
    intro remaining hres u v hedge hu hv
    rw [kahnRun] at hres ⊢
    cases hpick : pickSource edges remaining with
    | none =>
      rw [hpick] at hres
      simp at hres
      subst hres
      simp at hu
    | some w =>
      rw [hpick] at hres
      simp only at hres ⊢
      obtain ⟨hw, hnoin⟩ := pickSource_spec_some hpick
      have hvw : v ≠ w := by
        intro heq
        exact hnoin u hu (heq ▸ hedge)
      by_cases huw : u = w
      · subst huw
        rw [posOf_cons_self, posOf_cons_ne v u _ hvw]
        omega
      · have hu' : u ∈ remaining.erase w := (List.mem_erase_of_ne huw).mpr hu
        have hv' : v ∈ remaining.erase w := (List.mem_erase_of_ne hvw).mpr hv
        have := ih (remaining.erase w) hres u v hedge hu' hv'
        rw [posOf_cons_ne u w _ huw, posOf_cons_ne v w _ hvw]
        omega

theorem chain_lt_headD_le_getLastD (f : Nat → Nat) :
    ∀ c : List Nat, List.Chain' (fun a b => f a < f b) c → c ≠ [] →
      f (c.headD 0) ≤ f (c.getLastD 0) := by
  intro c
  induction c with
  | nil => intro _ h; exact absurd rfl h
  | cons x rest ih =>
    intro hchain _
    cases rest with
    | nil => simp
    | cons y rest' =>
      have hxy : f x < f y := List.chain'_cons.mp hchain |>.1
      have htail := List.chain'_cons.mp hchain |>.2
      have := ih htail (by simp)
      simp only [List.headD_cons, List.getLastD_cons] at *
      omega

/-- If Kahn's algorithm finishes with empty residual on a well-formed
digraph, the edge set has no cycle. -/
theorem no_cycle_of_empty_residual (g : Digraph)
    (hwf : ∀ p ∈ g.edges, p.1 ∈ g.nodes ∧ p.2 ∈ g.nodes)
    (hres : (kahnRun g.edges g.nodes.length g.nodes).2 = []) :
    ∀ c, ¬ IsCycle g.edges c := by
  intro c hc
  obtain ⟨hne, hchain, hwrap⟩ := hc
  have hsorted := kahnRun_order_sorted g.edges g.nodes.length g.nodes hres
  have hchain' : List.Chain' (fun a b =>
      posOf a (kahnRun g.edges g.nodes.length g.nodes).1 <
      posOf b (kahnRun g.edges g.nodes.length g.nodes).1) c := by
    refine List.Chain'.imp ?_ hchain
    intro a b hab
    exact hsorted a b hab (hwf (a, b) hab).1 (hwf (a, b) hab).2
  have hle : posOf (c.headD 0) (kahnRun g.edges g.nodes.length g.nodes).1 ≤
      posOf (c.getLastD 0) (kahnRun g.edges g.nodes.length g.nodes).1 :=
    chain_lt_headD_le_getLastD
      (fun a => posOf a (kahnRun g.edges g.nodes.length g.nodes).1) c hchain' hne
  have hlt := hsorted (c.getLastD 0) (c.headD 0) hwrap
    (hwf _ hwrap).1 (hwf _ hwrap).2
  omega

theorem cutAt_ne_nil {v : Nat} : ∀ {acc : List Nat}, v ∈ acc → cutAt v acc ≠ [] := by
  intro acc hv
  induction acc with
  | nil => simp at hv
  | cons u rest ih =>
    rw [cutAt]
    by_cases h : u = v
    · simp [h]
    · simp [h]

theorem cutAt_headD {v : Nat} : ∀ {acc : List Nat}, acc ≠ [] →
    (cutAt v acc).headD 0 = acc.headD 0 := by
  intro acc hacc
  cases acc with
  | nil => exact absurd rfl hacc
  | cons u rest =>
    rw [cutAt]
    by_cases h : u = v <;> simp [h]

theorem cutAt_getLastD {v : Nat} : ∀ {acc : List Nat}, v ∈ acc →
    ∀ d, (cutAt v acc).getLastD d = v := by
  intro acc
  induction acc with
  | nil => intro hv; simp at hv
  | cons u rest ih =>
    intro hv d
    rw [cutAt]
    by_cases h : u = v
    · simp [h]
    · have hv' : v ∈ rest := by
        cases List.mem_cons.mp hv with
        | inl heq => exact absurd heq.symm h
        | inr hm => exact hm
      simp only [if_neg h]
      rw [List.getLastD_cons]
      exact ih hv' u

theorem cutAt_chain' {R : Nat → Nat → Prop} {v : Nat} :
    ∀ {acc : List Nat}, List.Chain' R acc → List.Chain' R (cutAt v acc) := by
  intro acc
  induction acc with
  | nil => intro _; simp [cutAt]
  | cons u rest ih =>
    intro hchain
    rw [cutAt]
    by_cases h : u = v
    · simp [h]
    · simp only [if_neg h]
      cases rest with
      | nil => simp [cutAt]
      | cons w rest' =>
        have h1 : R u w := (List.chain'_cons.mp hchain).1
        have h2 := (List.chain'_cons.mp hchain).2
        rw [cutAt]
        by_cases hw : w = v
        · simp only [if_pos hw]
          exact List.chain'_cons.mpr ⟨h1, List.chain'_singleton w⟩
        · simp only [if_neg hw]
          have := ih h2
          rw [cutAt, if_neg hw] at this
          exact List.chain'_cons.mpr ⟨h1, this⟩

theorem pickIn_spec {edges : List (Nat × Nat)} {S : List Nat} {v : Nat}
    (hstuck : ∀ w ∈ S, ∃ u ∈ S, (u, w) ∈ edges) (hv : v ∈ S) :
    pickIn edges S v ∈ S ∧ (pickIn edges S v, v) ∈ edges := by
  rw [pickIn]
  cases hfind : S.find? (fun u => decide ((u, v) ∈ edges)) with
  | none =>
    exfalso
    obtain ⟨u, hu, hedge⟩ := hstuck v hv
    have := List.find?_eq_none.mp hfind u hu
    simp [hedge] at this
  | some u =>
    have hmem := List.mem_of_find?_eq_some hfind
    have hp := List.find?_some hfind
    simp only [decide_eq_true_eq] at hp
    exact ⟨hmem, hp⟩

theorem cycleWalk_spec (edges : List (Nat × Nat)) (S : List Nat)
    (hstuck : ∀ w ∈ S, ∃ u ∈ S, (u, w) ∈ edges) :
    ∀ fuel acc v, acc.Nodup → (∀ w ∈ acc, w ∈ S) → v ∈ S →
      List.Chain' (fun a b => (a, b) ∈ edges) acc →
      (acc ≠ [] → (v, acc.headD 0) ∈ edges) →
      S.length + 1 ≤ fuel + acc.length →
      IsCycle edges (cycleWalk edges S fuel acc v) := by
  intro fuel
  induction fuel with
  | zero =>
    intro acc v hnodup hsub _ _ _ hfuel
    exfalso
    have hsubperm : acc.Subperm S := List.subperm_of_subset hnodup hsub
    have := hsubperm.length_le
    omega
  | succ fuel ih =>
    intro acc v hnodup hsub hvS hchain hlink hfuel
    rw [cycleWalk]
    by_cases hvacc : v ∈ acc
    · simp only [if_pos hvacc]
      have haccne : acc ≠ [] := by
        intro h; rw [h] at hvacc; simp at hvacc
      refine ⟨cutAt_ne_nil hvacc, cutAt_chain' hchain, ?_⟩
      rw [cutAt_getLastD hvacc, cutAt_headD haccne]
      exact hlink haccne
    · simp only [if_neg hvacc]
      obtain ⟨hpick_mem, hpick_edge⟩ := pickIn_spec hstuck hvS
      refine ih (v :: acc) (pickIn edges S v) ?_ ?_ hpick_mem ?_ ?_ ?_
      · exact List.nodup_cons.mpr ⟨hvacc, hnodup⟩
      · intro w hw
        cases List.mem_cons.mp hw with
        | inl h => exact h ▸ hvS
        | inr h => exact hsub w h
      · cases acc with
        | nil => simp
        | cons a rest =>
          exact List.chain'_cons.mpr ⟨hlink (by simp), hchain⟩
      · intro _
        simp only [List.headD_cons]
        exact hpick_edge
      · simp only [List.length_cons]
        omega

/-- `findCycle` really returns a cycle whenever it is run on a stuck set
(every node of `S` has an in-neighbour in `S`) that is nonempty. -/
theorem findCycle_spec (edges : List (Nat × Nat)) (S : List Nat)
    (hne : S ≠ []) (hstuck : ∀ w ∈ S, ∃ u ∈ S, (u, w) ∈ edges) :
    IsCycle edges (findCycle edges S) := by
  cases S with
  | nil => exact absurd rfl hne
  | cons v S' =>
    rw [findCycle]
    exact cycleWalk_spec edges (v :: S') hstuck (S'.length + 2) [] v
      (by simp) (by simp) (by simp) (by simp) (by simp) (by simp)

theorem elementsOfType_subset {ctx : PContext} {t : String} {x : Nat}
    (hwf : ctx.wf = true) (hx : x ∈ ctx.elementsOfType t) : x ∈ ctx.nodes := by
  rw [PContext.elementsOfType] at hx
  cases hfind : ctx.element_type_to_elements.find? (fun p => p.1 = t) with
  | none => rw [hfind] at hx; simp at hx
  | some q =>
    rw [hfind] at hx
    simp only [Option.map_some', Option.getD_some] at hx
    have hq := List.mem_of_find?_eq_some hfind
    rw [PContext.wf, Bool.and_eq_true] at hwf
    have := hwf.2
    rw [List.all_eq_true] at this
    have := this q hq
    rw [List.all_eq_true] at this
    have := this x hx
    exact of_decide_eq_true this

theorem dep_edges_endpoints {ctx : PContext} (hwf : ctx.wf = true) :
    ∀ p ∈ ctx.dep_edges, p.1 ∈ ctx.nodes ∧ p.2 ∈ ctx.nodes := by
  intro p hp
  rw [PContext.dep_edges] at hp
  rw [List.mem_flatMap] at hp
  obtain ⟨te, hte, hp⟩ := hp
  rw [List.mem_flatMap] at hp
  obtain ⟨rr, _hrr, hp⟩ := hp
  split at hp
  · simp at hp
  · rw [List.mem_flatMap] at hp
    obtain ⟨dependency, hdep, hp⟩ := hp
    rw [List.mem_filterMap] at hp
    obtain ⟨element, helem, hsome⟩ := hp
    split at hsome
    · have hpe : p = (element, dependency) := (Option.some.injEq _ _ ▸ hsome).symm
      subst hpe
      constructor
      · rw [PContext.wf, Bool.and_eq_true] at hwf
        have := hwf.2
        rw [List.all_eq_true] at this
        have := this te hte
        rw [List.all_eq_true] at this
        exact of_decide_eq_true (this element helem)
      · exact elementsOfType_subset hwf hdep
    · exact absurd hsome (by simp)

theorem element_graph_endpoints {ctx : PContext} (hwf : ctx.wf = true) :
    ∀ p ∈ ctx.element_graph.edges,
      p.1 ∈ ctx.element_graph.nodes ∧ p.2 ∈ ctx.element_graph.nodes := by
  intro p hp
  rw [PContext.element_graph, Digraph.reverse] at hp ⊢
  simp only [List.mem_map] at hp
  obtain ⟨q, hq, hpq⟩ := hp
  subst hpq
  rw [List.mem_append] at hq
  simp only
  cases hq with
  | inl htree =>
    rw [PContext.wf, Bool.and_eq_true] at hwf
    have := hwf.1
    rw [List.all_eq_true] at this
    have := this q htree
    rw [Bool.and_eq_true] at this
    exact ⟨of_decide_eq_true this.2, of_decide_eq_true this.1⟩
  | inr hdep =>
    have := dep_edges_endpoints hwf q hdep
    exact ⟨this.2, this.1⟩

theorem processLoop_all_ok (process : Nat → Except DslException Unit) :
    ∀ l : List Nat, (∀ e ∈ l, process e = .ok ()) → processLoop process l = .ok l := by
  intro l
  induction l with
  | nil => intro _; rfl
  | cons e rest ih =>
    intro hall
    rw [processLoop, hall e (by simp), ih (fun x hx => hall x (by simp [hx]))]
    rfl

/-- C1.  For every acyclic dependency graph built by the `Context`, the
processing order returned by `elements_graph_topological_sort` places
every element strictly after all elements it requires (the dependency
edges `(element, dependency)` are reversed before sorting, so producers
precede consumers), and `parse` processes each element exactly once, in
that order. -/
theorem aria_c1_topological_order (ctx : PContext)
    (process : Nat → Except DslException Unit)
    (hnodup : ctx.nodes.Nodup) (hwf : ctx.wf = true)
    (hacyclic : ∀ c, ¬ IsCycle ctx.element_graph.edges c)
    (hproc : ∀ e, process e = .ok ()) :
    ∃ order,
      ctx.elements_graph_topological_sort = .ok order ∧
      order.Perm ctx.nodes ∧ order.Nodup ∧
      (∀ p ∈ ctx.dep_edges, posOf p.2 order < posOf p.1 order) ∧
      parse ctx process = .ok order := by
  have hnodes : ctx.element_graph.nodes = ctx.nodes := rfl
  set g := ctx.element_graph with hg
  have hres : (kahnRun g.edges g.nodes.length g.nodes).2 = [] := by
    by_contra hne
    have hstuck := kahnRun_residual_stuck g.edges g.nodes.length g.nodes (Nat.le_refl _)
    exact hacyclic _ (findCycle_spec g.edges _ hne hstuck)
  have hperm : (kahnRun g.edges g.nodes.length g.nodes).1.Perm ctx.nodes := by
    have := kahnRun_append_perm g.edges g.nodes.length g.nodes
    rw [hres, List.append_nil] at this
    exact this
  refine ⟨(kahnRun g.edges g.nodes.length g.nodes).1, ?_, hperm, ?_, ?_, ?_⟩
  · rw [PContext.elements_graph_topological_sort]
    simp only [← hg, hres, List.isEmpty_nil, if_true]
  · exact hperm.nodup_iff.mpr hnodup
  · intro p hp
    have hedge : (p.2, p.1) ∈ g.edges := by
      rw [hg, PContext.element_graph, Digraph.reverse]
      simp only [List.mem_map]
      exact ⟨p, List.mem_append.mpr (Or.inr hp), rfl⟩
    have hmem := element_graph_endpoints hwf _ hedge
    exact kahnRun_order_sorted g.edges g.nodes.length g.nodes hres p.2 p.1 hedge
      hmem.1 hmem.2
  · rw [parse, PContext.elements_graph_topological_sort]
    simp only [← hg, hres, List.isEmpty_nil, if_true]
    exact processLoop_all_ok process _ (fun e _ => hproc e)

/-- C2.  For every dependency graph containing a cycle, `parse` fails
with a structured circular-dependency error (`ERROR_CODE_CYCLE`): the
reported chain of element names is the names of an actual cycle of the
element graph with the first name repeated at the end, so it starts and
ends with the same element name and its length is the cycle length plus
one, and the chain is attached to the exception as structured data
(`circular_dependency`). -/
theorem aria_c2_cycle_error (ctx : PContext)
    (process : Nat → Except DslException Unit)
    (hwf : ctx.wf = true)
    (c : List Nat) (hc : IsCycle ctx.element_graph.edges c) :
    ∃ exc cyc,
      parse ctx process = .error exc ∧
      ctx.elements_graph_topological_sort = .error exc ∧
      exc.code = ERROR_CODE_CYCLE ∧
      IsCycle ctx.element_graph.edges cyc ∧
      exc.circular_dependency =
        some (cyc.map ctx.name_of ++ [(cyc.map ctx.name_of).headD ""]) ∧
      (exc.circular_dependency.getD []).length = cyc.length + 1 ∧
      (exc.circular_dependency.getD []).headD "" =
        (exc.circular_dependency.getD []).getLastD "" := by
  set g := ctx.element_graph with hg
  have hres : (kahnRun g.edges g.nodes.length g.nodes).2 ≠ [] := by
    intro hempty
    exact no_cycle_of_empty_residual g (element_graph_endpoints hwf) hempty c hc
  have hstuck := kahnRun_residual_stuck g.edges g.nodes.length g.nodes (Nat.le_refl _)
  have hcyc := findCycle_spec g.edges _ hres hstuck
  set cyc := findCycle g.edges (kahnRun g.edges g.nodes.length g.nodes).2 with hcycdef
  have hcycne : cyc ≠ [] := hcyc.1
  have hnamesne : cyc.map ctx.name_of ≠ [] := by
    intro h
    exact hcycne (List.map_eq_nil_iff.mp h)
  have hsort : ctx.elements_graph_topological_sort =
      .error
        { code := ERROR_CODE_CYCLE
          message := "Parsing failed. Circular dependency detected: " ++
            String.intercalate " --> "
              (cyc.map ctx.name_of ++ [(cyc.map ctx.name_of).headD ""])
          circular_dependency :=
            some (cyc.map ctx.name_of ++ [(cyc.map ctx.name_of).headD ""]) } := by
    rw [PContext.elements_graph_topological_sort]
    simp only [← hg, ← hcycdef]
    rw [if_neg (by simpa using hres)]
  refine ⟨_, cyc, ?_, hsort, rfl, hcyc, rfl, ?_, ?_⟩
  · rw [parse, hsort]
  · simp
  · cases hnames : cyc.map ctx.name_of with
    | nil => exact absurd hnames hnamesne
    | cons n rest =>
      simp only [Option.getD_some, List.cons_append, List.headD_cons]
      rw [List.getLastD_cons]
      have : ∀ (l : List String) (a d : String), (l ++ [a]).getLastD d = a := by
        intro l
        induction l with
        | nil => intro a d; rfl
        | cons x xs ih =>
          intro a d
          rw [List.cons_append, List.getLastD_cons]
          exact ih a x
      rw [this]

/-- C4.  For every fixed-mapping schema and every document mapping
containing a key not declared in the schema (string keys assumed, `kv`
the first undeclared entry): with `strict=true` schema validation fails
with a format error citing the undeclared key and attaching the matching
child element when one exists; with `strict=false` validation succeeds;
and the traversal captures the undeclared key as an `UnknownElement`
child rather than dropping it. -/
theorem aria_c4_strict_mode (sentries : List (String × ElemCls))
    (entries : List (Value × Value)) (children : List TraversedChild)
    (kv : Value × Value)
    (hkeys : entries.all (fun kv => kv.1.isStr) = true)
    (hfind : entries.find? (fun kv => !keyInSchema sentries kv.1) = some kv) :
    _validate_schema (.fixed sentries) true (.pdict entries) children =
      .error
        { code := 1
          message := "\x27" ++ pyStr kv.1 ++
            "\x27 is not in schema. Valid schema values: " ++
            reprStrList (sentries.map (fun e => e.1))
          element := children.find? (fun c => scalarBeq c.name kv.1) } ∧
    _validate_schema (.fixed sentries) false (.pdict entries) children = .ok () ∧
    ∃ c ∈ _traverse_dict_schema sentries (.pdict entries),
      c.cls = .unknownElement ∧ c.name = kv.1 ∧ c.value = some kv.2 := by
  have hfind1 : entries.find? (fun kv => !kv.1.isStr) = none := by
    apply List.find?_eq_none.mpr
    intro x hx
    have := List.all_eq_true.mp hkeys x hx
    simp [this]
  have hkvmem := List.mem_of_find?_eq_some hfind
  have hkvpred := List.find?_some hfind
  have hkvnotin : keyInSchema sentries kv.1 = false := by
    cases h : keyInSchema sentries kv.1 with
    | false => rfl
    | true => rw [h] at hkvpred; simp at hkvpred
  refine ⟨?_, ?_, ?_⟩
  · simp only [_validate_schema, hfind1, hfind]
    rfl
  · simp only [_validate_schema, hfind1]
    rfl
  · obtain ⟨ks, hks⟩ : ∃ s, kv.1 = .pstr s := by
      have := List.all_eq_true.mp hkeys kv hkvmem
      cases hx : kv.1 <;> rw [hx] at this <;> simp [Value.isStr] at this
      exact ⟨_, rfl⟩
    refine ⟨TraversedChild.mk .unknownElement kv.1 (some kv.2), ?_, rfl, rfl, rfl⟩
    simp only [_traverse_dict_schema]
    apply List.mem_append_right
    apply List.mem_filterMap.mpr
    refine ⟨kv, hkvmem, ?_⟩
    have hnotin2 : ∀ e ∈ sentries, e.1 ≠ ks := by
      rw [hks] at hkvnotin
      simp only [keyInSchema] at hkvnotin
      intro e he heq
      have h2 := List.any_eq_false.mp hkvnotin e he
      simp [heq] at h2
    have hany : (sentries.filterMap (fun nc =>
        if (dictLookup entries (.pstr nc.1)).isSome then some nc.1 else none)).any
        (fun n => scalarBeq kv.1 (.pstr n)) = false := by
      apply List.any_eq_false.mpr
      intro n hn
      obtain ⟨nc, hnc, hncn⟩ := List.mem_filterMap.mp hn
      have hn' : n = nc.1 := by
        by_cases hsome : (dictLookup entries (.pstr nc.1)).isSome
        · rw [if_pos hsome] at hncn
          exact (Option.some.inj hncn).symm
        · rw [if_neg hsome] at hncn
          exact absurd hncn (by simp)
      subst hn'
      rw [hks]
      simp only [scalarBeq]
      intro hbeq
      exact hnotin2 nc hnc (eq_of_beq hbeq).symm
    rw [hany]
    simp

/-- Witness for C4: schema `{count: ...}` against document
`{count: 5, extra: 1}` (the spec's concrete strict-mode scenario). -/
theorem aria_c4_witness :
    _validate_schema (.fixed [("count", .cls "CountElement")]) true
      (.pdict [(.pstr "count", .pint 5), (.pstr "extra", .pint 1)])
      (_traverse_dict_schema [("count", .cls "CountElement")]
        (.pdict [(.pstr "count", .pint 5), (.pstr "extra", .pint 1)])) =
      .error
        { code := 1
          message := "\x27" ++ pyStr (Value.pstr "extra") ++
            "\x27 is not in schema. Valid schema values: " ++
            reprStrList ([("count", ElemCls.cls "CountElement")].map (fun e => e.1))
          element :=
            (_traverse_dict_schema [("count", .cls "CountElement")]
              (.pdict [(.pstr "count", .pint 5), (.pstr "extra", .pint 1)])).find?
              (fun c => scalarBeq c.name (.pstr "extra")) } ∧
    _validate_schema (.fixed [("count", .cls "CountElement")]) false
      (.pdict [(.pstr "count", .pint 5), (.pstr "extra", .pint 1)])
      (_traverse_dict_schema [("count", .cls "CountElement")]
        (.pdict [(.pstr "count", .pint 5), (.pstr "extra", .pint 1)])) = .ok () ∧
    ∃ c ∈ _traverse_dict_schema [("count", .cls "CountElement")]
        (.pdict [(.pstr "count", .pint 5), (.pstr "extra", .pint 1)]),
      c.cls = .unknownElement ∧ c.name = .pstr "extra" ∧ c.value = some (.pint 1) :=
  aria_c4_strict_mode [("count", .cls "CountElement")]
    [(.pstr "count", .pint 5), (.pstr "extra", .pint 1)]
    (_traverse_dict_schema [("count", .cls "CountElement")]
      (.pdict [(.pstr "count", .pint 5), (.pstr "extra", .pint 1)]))
    (.pstr "extra", .pint 1) (by decide) rfl

theorem validateAlternatives_first_ok (strict : Bool) (v : Value)
    (children : List TraversedChild) :
    ∀ (pre : List ElemSchema) (sOK : ElemSchema) (post : List ElemSchema)
      (last : Option FormatErr),
      (∀ s ∈ pre, ∃ e, _validate_schema s strict v children = .error e) →
      _validate_schema sOK strict v children = .ok () →
      validateAlternatives strict v children (pre ++ sOK :: post) last = .ok () := by
  intro pre
  induction pre with
  | nil =>
    intro sOK post last _ hok
    rw [List.nil_append]
    simp only [validateAlternatives]
    rw [hok]
  | cons s pre' ih =>
    intro sOK post last hpre hok
    obtain ⟨e, he⟩ := hpre s (by simp)
    rw [List.cons_append]
    simp only [validateAlternatives]
    rw [he]
    exact ih sOK post (some e) (fun x hx => hpre x (by simp [hx])) hok

theorem validateAlternatives_all_fail (strict : Bool) (v : Value)
    (children : List TraversedChild) :
    ∀ (ss : List ElemSchema) (slast : ElemSchema) (elast : FormatErr)
      (last : Option FormatErr),
      (∀ s ∈ ss, ∃ e, _validate_schema s strict v children = .error e) →
      ss.getLast? = some slast →
      _validate_schema slast strict v children = .error elast →
      validateAlternatives strict v children ss last = .error (.fmt elast) := by
  intro ss
  induction ss with
  | nil => intro slast elast last _ hlast _; simp at hlast
  | cons s rest ih =>
    intro slast elast last hall hlast herr
    obtain ⟨e, he⟩ := hall s (by simp)
    simp only [validateAlternatives]
    rw [he]
    cases rest with
    | nil =>
      have hs : slast = s := by simpa using hlast.symm
      subst hs
      rw [he] at herr
      have : e = elast := by
        have := Except.error.inj herr
        exact this
      subst this
      simp only [validateAlternatives]
    | cons s' rest' =>
      have hlast' : (s' :: rest').getLast? = some slast := by
        rw [← hlast]
        rfl
      exact ih slast elast (some e) (fun x hx => hall x (by simp [hx])) hlast' herr

/-- C5.  For every element whose schema is a list of alternative
descriptors and every present value: the alternatives are tried in list
order and the first alternative that validates is accepted (validation
stops there); if every alternative fails, the error raised is the one
produced by the last alternative in the list. -/
theorem aria_c5_schema_alternatives (element : PElement) (strict : Bool) (v : Value)
    (ss : List ElemSchema)
    (hval : element.initial_value = some v)
    (hschema : element.schemaSpec = .alts ss) :
    (∀ (pre : List ElemSchema) (sOK : ElemSchema) (post : List ElemSchema),
      ss = pre ++ sOK :: post →
      (∀ s ∈ pre, ∃ e, _validate_schema s strict v element.children = .error e) →
      _validate_schema sOK strict v element.children = .ok () →
      _validate_element_schema element strict = .ok ()) ∧
    (∀ (slast : ElemSchema) (elast : FormatErr),
      ss.getLast? = some slast →
      (∀ s ∈ ss, ∃ e, _validate_schema s strict v element.children = .error e) →
      _validate_schema slast strict v element.children = .error elast →
      _validate_element_schema element strict = .error (.fmt elast)) := by
  constructor
  · intro pre sOK post hsplit hpre hok
    rw [_validate_element_schema, hval, hschema, hsplit]
    exact validateAlternatives_first_ok strict v element.children pre sOK post none hpre hok
  · intro slast elast hlast hall herr
    rw [_validate_element_schema, hval, hschema]
    exact validateAlternatives_all_fail strict v element.children ss slast elast none
      hall hlast herr

/-- Witness for C5: value `"x"` against alternatives
`[Leaf(int), Leaf(str)]` (first fails, second succeeds) and against
`[Leaf(int), Leaf(bool)]` (both fail, the bool error surfaces). -/
theorem aria_c5_witness :
    _validate_element_schema
      { name := .pstr "e", initial_value := some (.pstr "x")
        schemaSpec := .alts [.leaf [.tint], .leaf [.tstr]] } true = .ok () ∧
    _validate_element_schema
      { name := .pstr "e", initial_value := some (.pstr "x")
        schemaSpec := .alts [.leaf [.tint], .leaf [.tbool]] } true =
      .error (.fmt { code := 1
                     message := _expected_type_message (.pstr "x") (pyTypeUserName .tbool) }) := by
  constructor
  · exact (aria_c5_schema_alternatives _ true (.pstr "x") [.leaf [.tint], .leaf [.tstr]]
      rfl rfl).1 [.leaf [.tint]] (.leaf [.tstr]) [] rfl
      (by
        intro s hs
        simp only [List.mem_singleton] at hs
        subst hs
        exact ⟨_, rfl⟩)
      rfl
  · exact (aria_c5_schema_alternatives _ true (.pstr "x") [.leaf [.tint], .leaf [.tbool]]
      rfl rfl).2 (.leaf [.tbool]) _ rfl
      (by
        intro s hs
        simp only [List.mem_cons, List.not_mem_nil, or_false] at hs
        rcases hs with h | h
        · subst h; exact ⟨_, rfl⟩
        · subst h; exact ⟨_, rfl⟩)
      rfl

/-- C6.  `_sort_requirements_result`: with `multiple_results` all matches
are kept as a list; otherwise exactly one match yields the single value,
a required requirement with a match count different from one is a format
error, an optional requirement with zero matches yields `None`, and an
optional requirement with more than one match is an
`'Illegal state'` error. -/
theorem aria_c6_requirement_results (result : List Value) (requirement : Requirement) :
    (requirement.multiple_results = true →
      _sort_requirements_result result requirement = .ok (.plist result)) ∧
    (requirement.multiple_results = false → ∀ x, result = [x] →
      _sort_requirements_result result requirement = .ok x) ∧
    (requirement.multiple_results = false → requirement.required = true →
      result.length ≠ 1 →
      ∃ msg, _sort_requirements_result result requirement =
        .error (.fmt { code := 1, message := msg })) ∧
    (requirement.multiple_results = false → requirement.required = false →
      result = [] →
      _sort_requirements_result result requirement = .ok .pnone) ∧
    (requirement.multiple_results = false → requirement.required = false →
      1 < result.length →
      _sort_requirements_result result requirement = .error (.illegalState "Illegal state")) := by
  refine ⟨?_, ?_, ?_, ?_, ?_⟩
  · intro hm
    rw [_sort_requirements_result, if_pos hm]
  · intro hm x hx
    subst hx
    rw [_sort_requirements_result, if_neg (by simp [hm]), if_neg (by simp)]
    rfl
  · intro hm hr hlen
    refine ⟨"Expected exactly one result for requirement \x27" ++
      requirement.name ++ "\x27 but found " ++
      (if result.isEmpty then "none" else pyRepr (.plist result)), ?_⟩
    rw [_sort_requirements_result, if_neg (by simp [hm]), if_pos hlen, if_pos hr]
  · intro hm hr hres
    subst hres
    rw [_sort_requirements_result, if_neg (by simp [hm]), if_pos (by simp),
      if_neg (by simp [hr]), if_pos (by simp)]
  · intro hm hr hlen
    rw [_sort_requirements_result, if_neg (by simp [hm]), if_pos (by omega),
      if_neg (by simp [hr]), if_neg (by simp [List.isEmpty_iff]; intro h; subst h; simp at hlen)]

/-- Witness for C6 at concrete inputs: a `multiple_results` requirement
keeps both matches; an optional unmatched requirement yields `None`; a
required requirement with two matches is a format error. -/
theorem aria_c6_witness :
    _sort_requirements_result [.pint 1, .pint 2] { name := "r", multiple_results := true } =
      .ok (.plist [.pint 1, .pint 2]) ∧
    _sort_requirements_result [] { name := "r", required := false } = .ok .pnone ∧
    ∃ msg, _sort_requirements_result [.pint 1, .pint 2] { name := "r" } =
      .error (.fmt { code := 1, message := msg }) := by
  refine ⟨?_, ?_, ?_⟩
  · exact (aria_c6_requirement_results [.pint 1, .pint 2]
      { name := "r", multiple_results := true }).1 rfl
  · exact (aria_c6_requirement_results [] { name := "r", required := false }).2.2.2.1
      rfl rfl rfl
  · exact (aria_c6_requirement_results [.pint 1, .pint 2] { name := "r" }).2.2.1
      rfl rfl (by decide)

/-- C8.  Every `DSLParsingException` raised while validating or
processing one element during `parse` propagates out of `parse` carrying
a responsible element: the processor attaches the current element exactly
when the exception does not already carry one and never overwrites an
element attached at an inner raise site. -/
theorem aria_c8_element_attribution (ctx : PContext)
    (process : Nat → Except DslException Unit) (order : List Nat)
    (exc' : DslException)
    (hsort : ctx.elements_graph_topological_sort = .ok order)
    (hparse : parse ctx process = .error exc') :
    ∃ e exc, e ∈ order ∧ process e = .error exc ∧
      exc' = (if exc.element.isNone then { exc with element := some e } else exc) ∧
      (exc.element = none → exc'.element = some e) ∧
      (∀ x, exc.element = some x → exc'.element = some x) ∧
      exc'.element.isSome = true := by
  rw [parse, hsort] at hparse
  clear hsort
  induction order with
  | nil =>
    have hparse2 : (Except.ok [] : Except DslException (List Nat)) = .error exc' := hparse
    exact absurd hparse2 (by simp)
  | cons e rest ih =>
    simp only [processLoop] at hparse
    cases hp : process e with
    | error exc =>
      rw [hp] at hparse
      have hexc' : exc' = (if exc.element.isNone then { exc with element := some e } else exc) :=
        (Except.error.inj hparse).symm
      refine ⟨e, exc, by simp, hp, hexc', ?_, ?_, ?_⟩
      · intro hnone
        rw [hexc', hnone]
        rfl
      · intro x hx
        rw [hexc']
        simp [hx]
      · rw [hexc']
        cases hel : exc.element with
        | none => simp [hel]
        | some x => simp [hel]
    | ok u =>
      cases u
      rw [hp] at hparse
      have hparse2 : Except.map (fun tr => e :: tr) (processLoop process rest) =
          .error exc' := hparse
      have hrest : processLoop process rest = .error exc' := by
        cases hrec : processLoop process rest with
        | error f =>
          rw [hrec] at hparse2
          have hparse3 : (Except.error f : Except DslException (List Nat)) = .error exc' :=
            hparse2
          exact hparse3
        | ok tr =>
          rw [hrec] at hparse2
          have hparse3 : (Except.ok (e :: tr) : Except DslException (List Nat)) = .error exc' :=
            hparse2
          exact absurd hparse3 (by simp)
      obtain ⟨e0, exc0, hmem, hrest'⟩ := ih hrest
      exact ⟨e0, exc0, by simp [hmem], hrest'⟩

/-- Witness for C8: processing element `1` of `c1ctx` fails with an
exception that carries no element; `parse` attaches element `1`. -/
theorem aria_c8_witness :
    parse c1ctx
      (fun e => if e = 1 then .error { code := 1, message := "boom" } else .ok ()) =
      .error { code := 1, message := "boom", element := some 1 } ∧
    (DslException.element { code := 1, message := "boom", element := some 1 }).isSome = true := by
  obtain ⟨e, exc, _hmem, _hproc, _heq, _hnone, _hsome, hs⟩ :=
    aria_c8_element_attribution c1ctx
      (fun e => if e = 1 then .error { code := 1, message := "boom" } else .ok ())
      [2, 1, 0] { code := 1, message := "boom", element := some 1 } rfl rfl
  exact ⟨rfl, hs⟩

/-- Witness for C1 on the concrete acyclic context `c1ctx`. -/
theorem aria_c1_witness :
    c1ctx.elements_graph_topological_sort = .ok [2, 1, 0] ∧
    posOf 2 [2, 1, 0] < posOf 1 [2, 1, 0] ∧
    parse c1ctx (fun _ => .ok ()) = .ok [2, 1, 0] := by
  obtain ⟨order, hsort, _hperm, _hnodup, hord, hparse⟩ :=
    aria_c1_topological_order c1ctx (fun _ => .ok ()) (by decide) (by decide)
      (fun c hc => no_cycle_of_empty_residual c1ctx.element_graph
        (element_graph_endpoints (by decide)) (by decide) c hc)
      (fun _ => rfl)
  have h2 : c1ctx.elements_graph_topological_sort = .ok [2, 1, 0] := by rfl
  rw [hsort] at h2
  have horder : order = [2, 1, 0] := Except.ok.inj h2
  subst horder
  exact ⟨hsort, hord (1, 2) (by decide), hparse⟩

/-- Witness for C2 on the concrete cyclic context `c2ctx`. -/
theorem aria_c2_witness :
    IsCycle c2ctx.element_graph.edges [0, 1] ∧
    parse c2ctx (fun _ => .ok ()) = .error
      { code := ERROR_CODE_CYCLE
        message := "Parsing failed. Circular dependency detected: 1 --> 0 --> 1"
        element := none
        circular_dependency := some ["1", "0", "1"] } := by
  have hcyc : IsCycle c2ctx.element_graph.edges [0, 1] :=
    ⟨by decide, List.chain'_pair.mpr (by decide), by decide⟩
  refine ⟨hcyc, ?_⟩
  obtain ⟨exc, cyc, hparse, hsort, _⟩ :=
    aria_c2_cycle_error c2ctx (fun _ => .ok ()) (by decide) [0, 1] hcyc
  have h2 : c2ctx.elements_graph_topological_sort = .error
      { code := ERROR_CODE_CYCLE
        message := "Parsing failed. Circular dependency detected: 1 --> 0 --> 1"
        element := none
        circular_dependency := some ["1", "0", "1"] } := by rfl
  rw [hsort] at h2
  rw [hparse, Except.error.inj h2]

/-- C10.  `GetProperty.evaluate_runtime` unconditionally raises
`RuntimeError('runtime evaluation for get_property is not supported')`
for every function instance and every storage — exactly like
`GetInput.evaluate_runtime` does for `get_input`: both are resolvable
only statically. -/
theorem aria_c10_get_property_runtime (registry : List (String × FunctionKind))
    (d : FunctionData) (node_name : Value) (property_path : List Value)
    (storage : Storage) (fuel : Nat) :
    evaluateRuntimeFn registry (.getProperty d node_name property_path) storage fuel =
      .error (.runtimeError "runtime evaluation for get_property is not supported") ∧
    ∀ (d' : FunctionData) (input_name : String),
      evaluateRuntimeFn registry (.getInput d' input_name) storage fuel =
        .error (.runtimeError "runtime evaluation for get_input is not supported") :=
  ⟨rfl, fun _ _ => rfl⟩

/-- Counterexample for C3 as stated: a concat whose argument list
contains a not-yet-resolved function form (`{get_input: x}`) does not
evaluate at runtime to the string join — `Concat.evaluate_runtime`
returns the raw concat form instead. -/
theorem aria_c3_counterexample :
    concatEvaluateRuntime default_registry
      { raw := .pdict [(.pstr "concat", .plist [.pdict [(.pstr "get_input", .pstr "x")]])] }
      "" [.pdict [(.pstr "get_input", .pstr "x")]] emptyStorage =
      .ok (.pdict [(.pstr "concat", .plist [.pdict [(.pstr "get_input", .pstr "x")]])]) ∧
    Value.pdict [(.pstr "concat", .plist [.pdict [(.pstr "get_input", .pstr "x")]])] ≠
      .pstr (concatJoin "" [.pdict [(.pstr "get_input", .pstr "x")]]) :=
  ⟨rfl, fun h => Value.noConfusion h⟩

/-- C3 (amended).  `Concat.evaluate_runtime` performs the separator-join
of the stringified arguments whenever no argument is itself a
recognizable function form (each argument is returned unchanged by
function parsing); an argument that parses into a function makes it
return the raw form instead (see the counterexample). -/
theorem aria_c3_concat_runtime_join (registry : List (String × FunctionKind))
    (d : FunctionData) (separator : String) (joined : List Value) (storage : Storage)
    (h : ∀ jv ∈ joined, parseFn registry jv = .ok (.value jv)) :
    concatEvaluateRuntime registry d separator joined storage =
      .ok (.pstr (concatJoin separator joined)) := by
  rw [concatEvaluateRuntime, concatEvaluate]
  have hgo : ∀ l, (∀ jv ∈ l, parseFn registry jv = .ok (.value jv)) →
      concatEvaluateGo registry d.raw separator joined l =
        .ok (.pstr (concatJoin separator joined)) := by
    intro l
    induction l with
    | nil => intro _; rfl
    | cons jv rest ih =>
      intro hall
      rw [concatEvaluateGo]
      rw [hall jv (by simp)]
      exact ih (fun x hx => hall x (by simp [hx]))
  exact hgo joined h

/-- Witness for C3 (amended) at concrete function-free arguments. -/
theorem aria_c3_witness :
    concatEvaluateRuntime default_registry { raw := .pnone } "" [.pstr "a", .pstr "b"]
      emptyStorage = .ok (.pstr "ab") := by
  have h := aria_c3_concat_runtime_join default_registry { raw := .pnone } ""
    [.pstr "a", .pstr "b"] emptyStorage
    (by
      intro jv hjv
      simp only [List.mem_cons, List.not_mem_nil, or_false] at hjv
      rcases hjv with h | h <;> subst h <;> rfl)
  rw [h]
  rfl

/-- C7.  For a `get_attribute` referencing a plain node name (not
`SELF`/`SOURCE`/`TARGET`), when the storage reports exactly one live
instance for that name, runtime evaluation resolves to that instance and
returns its attribute value — runtime properties first, the node's
static properties as fallback — independent of all relationship and
scaling-group data (the disambiguation steps are not invoked). -/
theorem aria_c7_single_instance (d : FunctionData) (node_name : Value)
    (attribute_path : List Value) (storage : Storage) (fuel : Nat)
    (inst : NodeInstance)
    (hself : scalarBeq node_name (.pstr SELF) = false)
    (hsource : scalarBeq node_name (.pstr SOURCE) = false)
    (htarget : scalarBeq node_name (.pstr TARGET) = false)
    (hone : storage.get_node_instances node_name = [inst]) :
    getAttributeEvaluateRuntime d node_name attribute_path storage fuel =
      (do
        let value ← _get_property_value inst.node_id inst.runtime_properties
          attribute_path (pathStr d.path) false
        if value.isNone then
          _get_property_value (storage.get_node inst.node_id).id
            (storage.get_node inst.node_id).properties attribute_path (pathStr d.path) false
        else pure value) := by
  have hresolve : getAttributeResolveInstance d node_name attribute_path storage fuel =
      .ok inst := by
    rw [getAttributeResolveInstance, if_neg (by simp [hself]), if_neg (by simp [hsource]),
      if_neg (by simp [htarget]), _resolve_node_instance_by_name]
    rw [hone]
  rw [getAttributeEvaluateRuntime, hresolve]
  rfl

/-- Witness for C7: one `db` instance with runtime property
`port = 8080`. -/
theorem aria_c7_witness :
    getAttributeEvaluateRuntime { context := .pdict [] } (.pstr "db") [.pstr "port"]
      c7storage 3 = .ok (.pint 8080) := by
  rw [aria_c7_single_instance { context := .pdict [] } (.pstr "db") [.pstr "port"]
    c7storage 3 c7inst (by decide) (by decide) (by decide) rfl]
  rfl

theorem parseFn_pass_through (registry : List (String × FunctionKind)) (v : Value)
    (scope : Option String) (context : Value) (path : Option String)
    (h : isFunctionForm registry v = false) :
    parseFn registry v scope context path = .ok (.value v) := by
  cases v with
  | pdict es =>
    cases es with
    | nil => rfl
    | cons kv rest =>
      cases rest with
      | cons kv2 rest2 => rfl
      | nil =>
        obtain ⟨k, args⟩ := kv
        cases k with
        | pstr name =>
          simp only [isFunctionForm] at h
          have hfind : registry.find? (fun e => decide (e.1 = name)) = none := by
            cases hf : registry.find? (fun e => decide (e.1 = name)) with
            | none => rfl
            | some e => rw [hf] at h; simp at h
          simp only [parseFn, hfind]
        | pnone => rfl
        | pbool b => rfl
        | pint n => rfl
        | plist l => rfl
        | pdict d => rfl
  | pnone => rfl
  | pbool b => rfl
  | pint n => rfl
  | pstr s => rfl
  | plist l => rfl

theorem vsize_pos (v : Value) : 1 ≤ vsize v := by
  cases v <;> simp [vsize]

theorem ventriesSize_le {kv : Value × Value} :
    ∀ {es : List (Value × Value)}, kv ∈ es → vsize kv.2 ≤ ventriesSize es := by
  intro es
  induction es with
  | nil => intro h; simp at h
  | cons kv0 rest ih =>
    intro h
    rw [ventriesSize]
    cases List.mem_cons.mp h with
    | inl heq => subst heq; omega
    | inr hmem => have := ih hmem; omega

theorem vlistSize_le {x : Value} :
    ∀ {xs : List Value}, x ∈ xs → vsize x ≤ vlistSize xs := by
  intro xs
  induction xs with
  | nil => intro h; simp at h
  | cons x0 rest ih =>
    intro h
    rw [vlistSize]
    cases List.mem_cons.mp h with
    | inl heq => subst heq; omega
    | inr hmem => have := ih hmem; omega

theorem functionFree_root {registry : List (String × FunctionKind)} {v : Value}
    (h : functionFree registry v = true) : isFunctionForm registry v = false := by
  cases v with
  | pdict es =>
    simp only [functionFree, Bool.and_eq_true] at h
    have := h.1
    cases hf : isFunctionForm registry (.pdict es) with
    | false => rfl
    | true => rw [hf] at this; simp at this
  | pnone => rfl
  | pbool b => rfl
  | pint n => rfl
  | pstr s => rfl
  | plist l => rfl

theorem functionFree_entries {registry : List (String × FunctionKind)} :
    ∀ {es : List (Value × Value)}, functionFreeEntries registry es = true →
      ∀ kv ∈ es, functionFree registry kv.2 = true := by
  intro es
  induction es with
  | nil => intro _ kv h; simp at h
  | cons kv0 rest ih =>
    intro h kv hmem
    rw [functionFreeEntries, Bool.and_eq_true] at h
    cases List.mem_cons.mp hmem with
    | inl heq => subst heq; exact h.1
    | inr hm => exact ih h.2 kv hm

theorem functionFree_list {registry : List (String × FunctionKind)} :
    ∀ {xs : List Value}, functionFreeList registry xs = true →
      ∀ x ∈ xs, functionFree registry x = true := by
  intro xs
  induction xs with
  | nil => intro _ x h; simp at h
  | cons x0 rest ih =>
    intro h x hmem
    rw [functionFreeList, Bool.and_eq_true] at h
    cases List.mem_cons.mp hmem with
    | inl heq => subst heq; exact h.1
    | inr hm => exact ih h.2 x hm

theorem handlerLoop_pass_through (registry : List (String × FunctionKind))
    (evaluator : TemplateFunction → Except FuncErr Value)
    (scope : Option String) (context : Value) (path : Option String)
    (fuel : Nat) (v : Value) (hff : isFunctionForm registry v = false) :
    handlerLoop registry evaluator scope context path (fuel + 1) false v = .ok v := by
  simp only [handlerLoop]
  rw [parseFn_pass_through registry v scope context path hff]
  rfl

theorem scanPropsEntries_congr_id (registry : List (String × FunctionKind))
    (evaluator : TemplateFunction → Except FuncErr Value)
    (scope : Option String) (context : Value) (path : Option String) (fuel : Nat)
    (ih : ∀ w, functionFree registry w = true → vsize w < fuel →
      scanProps registry evaluator scope context path fuel w = .ok w) :
    ∀ es : List (Value × Value),
      (∀ kv ∈ es, functionFree registry kv.2 = true) →
      (∀ kv ∈ es, vsize kv.2 < fuel) →
      scanPropsEntries registry evaluator scope context path fuel es = .ok es := by
  intro es
  induction es with
  | nil => intro _ _; simp [scanPropsEntries]
  | cons kv rest ihl =>
    intro h1 h2
    simp only [scanPropsEntries]
    rw [ih kv.2 (h1 kv (by simp)) (h2 kv (by simp))]
    rw [ihl (fun x hx => h1 x (by simp [hx])) (fun x hx => h2 x (by simp [hx]))]
    rfl

theorem scanPropsList_congr_id (registry : List (String × FunctionKind))
    (evaluator : TemplateFunction → Except FuncErr Value)
    (scope : Option String) (context : Value) (path : Option String) (fuel : Nat)
    (ih : ∀ w, functionFree registry w = true → vsize w < fuel →
      scanProps registry evaluator scope context path fuel w = .ok w) :
    ∀ xs : List Value,
      (∀ x ∈ xs, functionFree registry x = true) →
      (∀ x ∈ xs, vsize x < fuel) →
      scanPropsList registry evaluator scope context path fuel xs = .ok xs := by
  intro xs
  induction xs with
  | nil => intro _ _; simp [scanPropsList]
  | cons x rest ihl =>
    intro h1 h2
    simp only [scanPropsList]
    rw [ih x (h1 x (by simp)) (h2 x (by simp))]
    rw [ihl (fun y hy => h1 y (by simp [hy])) (fun y hy => h2 y (by simp [hy]))]
    rfl

theorem scanProps_pass_through (registry : List (String × FunctionKind))
    (evaluator : TemplateFunction → Except FuncErr Value)
    (scope : Option String) (context : Value) (path : Option String) :
    ∀ (fuel : Nat) (payload : Value), functionFree registry payload = true →
      vsize payload < fuel →
      scanProps registry evaluator scope context path fuel payload = .ok payload := by
  intro fuel
  induction fuel with
  | zero => intro payload _ h2; exact absurd h2 (Nat.not_lt_zero _)
  | succ fuel ih =>
    intro payload hfree hsize
    have hv1 := vsize_pos payload
    obtain ⟨g, hg⟩ : ∃ g, fuel = g + 1 := ⟨fuel - 1, by omega⟩
    have hhandler : handlerLoop registry evaluator scope context path fuel false payload =
        .ok payload := by
      rw [hg]
      exact handlerLoop_pass_through registry evaluator scope context path g payload
        (functionFree_root hfree)
    cases payload with
    | pdict es =>
      have hfe : functionFreeEntries registry es = true := by
        simp only [functionFree, Bool.and_eq_true] at hfree
        exact hfree.2
      have hentries := scanPropsEntries_congr_id registry evaluator scope context path
        fuel ih es (functionFree_entries hfe)
        (fun kv hkv => by
          have h1 := ventriesSize_le hkv
          simp only [vsize] at hsize
          omega)
      have h1 : scanProps registry evaluator scope context path (fuel + 1) (Value.pdict es) =
          (do
            let es2 ← scanPropsEntries registry evaluator scope context path fuel es
            return Value.pdict es2) := by
        simp only [scanProps]
        rw [hhandler]
        rfl
      rw [h1, hentries]
      rfl
    | plist xs =>
      have hfl : functionFreeList registry xs = true := by
        simp only [functionFree] at hfree
        exact hfree
      have hlist := scanPropsList_congr_id registry evaluator scope context path
        fuel ih xs (functionFree_list hfl)
        (fun x hx => by
          have h1 := vlistSize_le hx
          simp only [vsize] at hsize
          omega)
      have h1 : scanProps registry evaluator scope context path (fuel + 1) (Value.plist xs) =
          (do
            let xs2 ← scanPropsList registry evaluator scope context path fuel xs
            return Value.plist xs2) := by
        simp only [scanProps]
        rw [hhandler]
        rfl
      rw [h1, hlist]
      rfl
    | pnone =>
      have h1 : scanProps registry evaluator scope context path (fuel + 1) Value.pnone =
          .ok Value.pnone := by
        simp only [scanProps]
        rw [hhandler]
        rfl
      exact h1
    | pbool b =>
      have h1 : scanProps registry evaluator scope context path (fuel + 1) (Value.pbool b) =
          .ok (Value.pbool b) := by
        simp only [scanProps]
        rw [hhandler]
        rfl
      exact h1
    | pint n =>
      have h1 : scanProps registry evaluator scope context path (fuel + 1) (Value.pint n) =
          .ok (Value.pint n) := by
        simp only [scanProps]
        rw [hhandler]
        rfl
      exact h1
    | pstr s =>
      have h1 : scanProps registry evaluator scope context path (fuel + 1) (Value.pstr s) =
          .ok (Value.pstr s) := by
        simp only [scanProps]
        rw [hhandler]
        rfl
      exact h1

/-- C9.  For every payload containing no recognizable function form at
any nesting depth, running the function scanner with any evaluation
handler returns the payload unchanged: `parse` passes every value
through as-is, so the handler replaces nothing — in particular the
runtime pass `evaluate_functions` is an identity on function-free
payloads. -/
theorem aria_c9_scanner_identity (registry : List (String × FunctionKind))
    (evaluator : TemplateFunction → Except FuncErr Value)
    (scope : Option String) (context : Value) (path : Option String)
    (storage : Storage) (payload : Value) (fuel : Nat)
    (hfree : functionFree registry payload = true)
    (hfuel : vsize payload < fuel) :
    scanProps registry evaluator scope context path fuel payload = .ok payload ∧
    evaluate_functions registry payload context storage fuel = .ok payload := by
  refine ⟨scanProps_pass_through registry evaluator scope context path fuel payload
    hfree hfuel, ?_⟩
  rw [evaluate_functions]
  exact scanProps_pass_through registry (fun f => evaluateRuntimeFn registry f storage fuel)
    none context (some "payload") fuel payload hfree hfuel

/-- Witness for C9: a function-free payload (including a two-key dict
one of whose keys happens to be `get_input`) passes through both the
generic scanner and `evaluate_functions` unchanged. -/
theorem aria_c9_witness :
    scanProps default_registry (fun _ => .ok .pnone) none .pnone none 9
      (.pdict [(.pstr "a", .plist [.pint 1, .pstr "b"]), (.pstr "get_input", .pint 2)]) =
      .ok (.pdict [(.pstr "a", .plist [.pint 1, .pstr "b"]), (.pstr "get_input", .pint 2)]) ∧
    evaluate_functions default_registry
      (.pdict [(.pstr "a", .plist [.pint 1, .pstr "b"]), (.pstr "get_input", .pint 2)])
      .pnone emptyStorage 9 =
      .ok (.pdict [(.pstr "a", .plist [.pint 1, .pstr "b"]), (.pstr "get_input", .pint 2)]) :=
  aria_c9_scanner_identity default_registry (fun _ => .ok .pnone) none .pnone none
    emptyStorage
    (.pdict [(.pstr "a", .plist [.pint 1, .pstr "b"]), (.pstr "get_input", .pint 2)]) 9
    (by simp [functionFree, functionFreeEntries, functionFreeList, isFunctionForm,
      default_registry])
    (by simp [vsize, ventriesSize, vlistSize])

end Aria
